import Mathlib

/-!
Verification of the timetable allocation and substitution engine of the
smart-classroom-scheduler repository (Node/Express + Sequelize/PostgreSQL).

Shallow embedding conventions, matching the source files under
backend/routes and backend/models:

* Entity ids (UUID columns) are modeled as Nat.
* SQL TIME values ("09:00:00" and so on) are modeled as minutes since
  midnight (540 = 09:00, 600 = 10:00, ...); PostgreSQL compares TIME
  values in exactly this numeric order.
* DATEONLY values are modeled as a day count since 1970-01-01 (UTC), so
  that the JavaScript Date#getDay of a date d is (d + 4) % 7
  (1970-01-01 was a Thursday, getDay 0 = Sunday).
* Enum-valued status columns are modeled as String, carrying the exact
  literals the routes write; the set of values declared on a model is a
  separate list definition.
* Sequelize row collections are Lean lists; a findAll with a where clause
  is List.filter, findOne/findByPk is List.find?, an update is List.map
  over the rows, a create is an append.  Database errors and rolled-back
  transactions are Except errors.
-/

namespace Scheduler

/-- Day enum of the TimetableEntry model: ENUM(Monday..Saturday).  Sunday is
included because the leave-route helpers (getDaysOfWeekBetweenDates,
getDatesByDayOfWeek in the leave routes file) use the seven-name array
starting at Sunday, indexed by Date#getDay. -/
inductive Day where
  | sunday | monday | tuesday | wednesday | thursday | friday | saturday
deriving DecidableEq, Repr

/-- Session type enum of the TimetableEntry model: ENUM(lecture, tutorial,
practical), default lecture. -/
inductive SessionType where
  | lecture | tutorial | practical
deriving DecidableEq, Repr

/-- One slot of the fixed timeSlots catalog in generateTimetableEntries:
a start and end time (minutes since midnight). -/
structure TimeSlot where
  startTime : Nat
  endTime : Nat
deriving DecidableEq, Repr

/-- The days array of generateTimetableEntries: Monday .. Saturday. -/
def days : List Day :=
  [.monday, .tuesday, .wednesday, .thursday, .friday, .saturday]

/-- The timeSlots catalog of generateTimetableEntries: 09:00-10:00,
10:00-11:00, 11:00-12:00, 12:00-13:00, 14:00-15:00, 15:00-16:00,
16:00-17:00 (minutes since midnight). -/
def timeSlots : List TimeSlot :=
  [⟨540, 600⟩, ⟨600, 660⟩, ⟨660, 720⟩, ⟨720, 780⟩,
   ⟨840, 900⟩, ⟨900, 960⟩, ⟨960, 1020⟩]

/-- TimetableEntry model row (fields used by the engine).  Entries produced
by the generator have id 0: the UUID primary key is generated at
bulkCreate time and plays no role in the generation algorithm. -/
structure TimetableEntry where
  id : Nat
  timetableId : Nat
  day : Day
  startTime : Nat
  endTime : Nat
  subjectId : Nat
  facultyId : Nat
  batchId : Nat
  classroomId : Nat
  type : SessionType
deriving DecidableEq, Repr

/-- Classroom model row (fields read by the engine: id, capacity, isLab). -/
structure Classroom where
  id : Nat
  capacity : Nat
  isLab : Bool
deriving DecidableEq, Repr

/-- Batch model row (fields read by the engine: id, strength). -/
structure Batch where
  id : Nat
  strength : Nat
deriving DecidableEq, Repr

/-- Subject model row (fields read by the engine: id and the three
hours-per-week counters). -/
structure Subject where
  id : Nat
  lectureHoursPerWeek : Nat
  tutorialHoursPerWeek : Nat
  practicalHoursPerWeek : Nat
deriving DecidableEq, Repr

/-- Faculty row joined with its User row (fields read by the engine:
Faculty.id, Faculty.userId, Users.department). -/
structure FacultyRec where
  id : Nat
  userId : Nat
  department : String
deriving DecidableEq, Repr

/-- FacultySubject model row: the faculty-subject preference table
(preference INTEGER, scale 1-10, higher is stronger). -/
structure FacultySubjectRow where
  facultyId : Nat
  subjectId : Nat
  preference : Int
  isActive : Bool
deriving DecidableEq, Repr

/-- One element of the facultyPreferences map built in
generateTimetableEntries, and also one row of the potential-substitutes
SQL queries: a faculty id with its preference score. -/
structure FacultyPref where
  facultyId : Nat
  preference : Int
deriving DecidableEq, Repr

/-! ### Sorting by descending preference

generateTimetableEntries sorts each facultyPreferences bucket with the
JavaScript comparator (a, b) => b.preference - a.preference.  Array#sort
is stable (ECMAScript 2019, V8 since Node 11), so the result is exactly
the linearization of the bucket by (preference descending, original
position ascending).  We realize that specification with an insertion
sort over the position-enumerated list. -/

/-- Total order realizing the stable descending-preference sort: x comes
no later than y when x has strictly larger preference, or equal
preference and an original position no later than y. -/
def prefLE (x y : Nat × FacultyPref) : Prop :=
  y.2.preference < x.2.preference ∨
    (x.2.preference = y.2.preference ∧ x.1 ≤ y.1)

instance : DecidableRel prefLE := fun x y => by
  unfold prefLE; exact inferInstance

instance : IsTotal (Nat × FacultyPref) prefLE :=
  ⟨by
    intro x y
    rcases lt_trichotomy x.2.preference y.2.preference with h | h | h
    · exact Or.inr (Or.inl h)
    · rcases Nat.le_total x.1 y.1 with h1 | h1
      · exact Or.inl (Or.inr ⟨h, h1⟩)
      · exact Or.inr (Or.inr ⟨h.symm, h1⟩)
    · exact Or.inl (Or.inl h)⟩

instance : IsTrans (Nat × FacultyPref) prefLE :=
  ⟨by
    intro x y z hxy hyz
    rcases hxy with h1 | ⟨h1, h1i⟩ <;> rcases hyz with h2 | ⟨h2, h2i⟩
    · exact Or.inl (lt_trans h2 h1)
    · exact Or.inl (h2 ▸ h1)
    · exact Or.inl (by omega)
    · exact Or.inr ⟨h1.trans h2, h1i.trans h2i⟩⟩

/-- The stable JavaScript sort by descending preference, as the insertion
sort of the position-enumerated list by prefLE. -/
def jsSortByPreferenceDesc (l : List FacultyPref) : List FacultyPref :=
  (List.insertionSort prefLE l.enum).map Prod.snd

/-- Descending-preference order used to model the SQL
ORDER BY FacultySubjects.preference DESC of the substitute queries
(no stability guarantee is needed there, only maximality of the head). -/
def prefGE (x y : FacultyPref) : Prop := y.preference ≤ x.preference

instance : DecidableRel prefGE := fun x y => by
  unfold prefGE; exact inferInstance

instance : IsTotal FacultyPref prefGE :=
  ⟨fun x y => (Int.le_total y.preference x.preference).imp id id⟩

instance : IsTrans FacultyPref prefGE :=
  ⟨fun _ _ _ h1 h2 => le_trans h2 h1⟩

/-- ORDER BY preference DESC over already-filtered candidate rows. -/
def orderByPreferenceDesc (l : List FacultyPref) : List FacultyPref :=
  List.insertionSort prefGE l

/-- The facultyPreferences bucket for one subject in
generateTimetableEntries: all rows of the (already department- and
isActive-filtered) facultySubjects input with this subjectId, in input
order, then sorted by descending preference (stable). -/
def prefsForSubject (facultySubjects : List FacultySubjectRow)
    (subjectId : Nat) : List FacultyPref :=
  (facultySubjects.filter (fun r => r.subjectId == subjectId)).map
    fun r => ⟨r.facultyId, r.preference⟩

/-- facultyPreferences lookup of generateTimetableEntries (grouping by
subjectId plus the per-bucket stable descending sort); a subject with no
rows yields the empty list, matching the JavaScript fallback to []. -/
def facultyPreferencesFor (facultySubjects : List FacultySubjectRow)
    (subjectId : Nat) : List FacultyPref :=
  jsSortByPreferenceDesc (prefsForSubject facultySubjects subjectId)

/-! ### The slot assignment tracker and the greedy generator -/

/-- Key of one catalog slot, modeling the JavaScript template-string key
start-end of the assignedSlots maps (the pair determines the string and
conversely). -/
def slotKey (s : TimeSlot) : Nat × Nat := (s.startTime, s.endTime)

/-- One of the three assignedSlots maps (faculty, batch, classroom) of
generateTimetableEntries, flattened from nested objects
id -> day -> slot-key -> true to the set of marked triples.  The
JavaScript initialization to empty per-id, per-day objects is the empty
set here; a lookup of an unmarked triple is false either way. -/
abbrev Occupancy : Type := List (Nat × Day × (Nat × Nat))

/-- isSlotAssigned of generateTimetableEntries: the triple is marked. -/
def isSlotAssigned (occ : Occupancy) (rid : Nat) (d : Day)
    (s : TimeSlot) : Bool :=
  decide ((rid, d, slotKey s) ∈ occ)

/-- markSlotAsAssigned of generateTimetableEntries. -/
def markSlotAsAssigned (occ : Occupancy) (rid : Nat) (d : Day)
    (s : TimeSlot) : Occupancy :=
  (rid, d, slotKey s) :: occ

/-- Mutable state of one generateTimetableEntries run: the entries array
plus the three assignedSlots maps. -/
structure GenState where
  entries : List TimetableEntry
  occFaculty : Occupancy
  occBatch : Occupancy
  occClassroom : Occupancy

/-- Initial state of a run: empty entries, all-free occupancy. -/
def initialGenState : GenState := ⟨[], [], [], []⟩

/-- The classroom search loop inside assignSessions: first classroom in
catalog order that (for practical sessions) is a lab, (for non-practical
sessions) is not a lab, is free in this day and slot, and has capacity at
least the batch strength. -/
def findClassroom (type : SessionType) (batch : Batch)
    (classrooms : List Classroom) (occClassroom : Occupancy)
    (d : Day) (s : TimeSlot) : Option Classroom :=
  classrooms.find? fun c =>
    (if type == .practical then c.isLab else !c.isLab) &&
      !(isSlotAssigned occClassroom c.id d s) &&
      batch.strength ≤ c.capacity

/-- The faculty loop inside assignSessions for one (day, slot): first
preferred faculty that is free, with the batch also free, for which the
classroom search succeeds. -/
def findFacultyAndClassroom (type : SessionType) (batch : Batch)
    (classrooms : List Classroom) (prefs : List FacultyPref)
    (st : GenState) (d : Day) (s : TimeSlot) : Option (Nat × Classroom) :=
  prefs.findSome? fun fp =>
    if isSlotAssigned st.occFaculty fp.facultyId d s then none
    else if isSlotAssigned st.occBatch batch.id d s then none
    else
      match findClassroom type batch classrooms st.occClassroom d s with
      | none => none
      | some c => some (fp.facultyId, c)

/-- The day and time-slot loops of assignSessions: first (day, slot) in
fixed catalog order admitting a faculty and classroom. -/
def findPlacement (type : SessionType) (batch : Batch)
    (classrooms : List Classroom) (prefs : List FacultyPref)
    (st : GenState) : Option (Day × TimeSlot × Nat × Classroom) :=
  days.findSome? fun d =>
    timeSlots.findSome? fun s =>
      (findFacultyAndClassroom type batch classrooms prefs st d s).map
        fun fc => (d, s, fc.1, fc.2)

/-- Committing one found placement: push the entry and mark the three
resources occupied for that day and slot. -/
def commitPlacement (timetableId : Nat) (type : SessionType)
    (subject : Subject) (batch : Batch) (st : GenState)
    (d : Day) (s : TimeSlot) (facultyId : Nat) (c : Classroom) : GenState :=
  { entries := st.entries ++
      [⟨0, timetableId, d, s.startTime, s.endTime, subject.id,
        facultyId, batch.id, c.id, type⟩],
    occFaculty := markSlotAsAssigned st.occFaculty facultyId d s,
    occBatch := markSlotAsAssigned st.occBatch batch.id d s,
    occClassroom := markSlotAsAssigned st.occClassroom c.id d s }

/-- assignSessions of generateTimetableEntries.  The while loop attempts
one placement per still-needed session and breaks as soon as an attempt
finds no placement, leaving the remaining units of this requirement
unassigned; the requiresLab parameter is accepted but never read in the
source (the classroom loop tests the type directly). -/
def assignSessions (timetableId : Nat) (type : SessionType)
    (sessionsPerWeek : Nat) (subject : Subject) (batch : Batch)
    (requiresLab : Bool) (classrooms : List Classroom)
    (prefs : List FacultyPref) (st : GenState) : GenState :=
  match sessionsPerWeek with
  | 0 => st
  | n + 1 =>
    match findPlacement type batch classrooms prefs st with
    | none => st
    | some (d, s, f, c) =>
      assignSessions timetableId type n subject batch requiresLab
        classrooms prefs (commitPlacement timetableId type subject batch st d s f c)

/-- Body of the batches-by-subjects double loop of
generateTimetableEntries: lecture, tutorial and practical sessions for
one (batch, subject) pair. -/
def assignSubjectForBatch (timetableId : Nat)
    (classrooms : List Classroom) (facultySubjects : List FacultySubjectRow)
    (batch : Batch) (st : GenState) (subject : Subject) : GenState :=
  let prefs := facultyPreferencesFor facultySubjects subject.id
  let st := assignSessions timetableId .lecture subject.lectureHoursPerWeek
    subject batch false classrooms prefs st
  let st := assignSessions timetableId .tutorial subject.tutorialHoursPerWeek
    subject batch false classrooms prefs st
  assignSessions timetableId .practical subject.practicalHoursPerWeek
    subject batch true classrooms prefs st

/-- Crash-free core of generateTimetableEntries: the entry list committed
by a run that never touches an uninitialized occupancy map.  In the
source the faculty list initializes the per-faculty occupancy objects,
and looking a faculty up that is absent from that list throws a
TypeError (the map is undefined); that error path is modeled by
generateTimetableEntriesRun below, which agrees with this function
exactly when every preference row names a rostered faculty
(generateTimetableEntriesRun_eq). -/
def generateTimetableEntries (timetableId : Nat) (batches : List Batch)
    (subjects : List Subject) (faculty : List FacultyRec)
    (classrooms : List Classroom)
    (facultySubjects : List FacultySubjectRow) : List TimetableEntry :=
  let _ := faculty
  (batches.foldl
    (fun st batch =>
      subjects.foldl
        (assignSubjectForBatch timetableId classrooms facultySubjects batch)
        st)
    initialGenState).entries

/-! ### Run-level generator semantics

The source initializes assignedSlots.faculty[f.id] only for f in the
faculty list (the batch and classroom maps are keyed by ids drawn from
the iterated catalogs, so those lookups are always initialized).  The
preferences query of the generate route filters neither Faculty.isActive
nor Users.isActive while the faculty query filters both, so a preference
row can name a faculty absent from the list; when the inner loop reaches
such a row, isSlotAssigned dereferences an undefined map and the whole
run throws a TypeError, which the route catches with a rollback and a
500.  The Run functions below mirror the same loops with that error
propagated. -/

/-- JavaScript runtime failure of a generation run. -/
inductive JsError where
  | undefinedOccupancyMap
deriving DecidableEq, Repr

/-- The faculty loop of assignSessions at run level: evaluating the
faculty occupancy check for a faculty without an initialized map throws;
otherwise the checks proceed as in findFacultyAndClassroom. -/
def findFacultyAndClassroomRun (roster : List FacultyRec)
    (type : SessionType) (batch : Batch) (classrooms : List Classroom)
    (prefs : List FacultyPref) (st : GenState) (d : Day) (s : TimeSlot) :
    Except JsError (Option (Nat × Classroom)) :=
  match prefs with
  | [] => .ok none
  | fp :: rest =>
    if !(roster.any fun f => f.id == fp.facultyId) then
      .error .undefinedOccupancyMap
    else if isSlotAssigned st.occFaculty fp.facultyId d s then
      findFacultyAndClassroomRun roster type batch classrooms rest st d s
    else if isSlotAssigned st.occBatch batch.id d s then
      findFacultyAndClassroomRun roster type batch classrooms rest st d s
    else
      match findClassroom type batch classrooms st.occClassroom d s with
      | none => findFacultyAndClassroomRun roster type batch classrooms rest st d s
      | some c => .ok (some (fp.facultyId, c))

/-- The time-slot loop of assignSessions at run level. -/
def findPlacementInSlotsRun (roster : List FacultyRec) (type : SessionType)
    (batch : Batch) (classrooms : List Classroom) (prefs : List FacultyPref)
    (st : GenState) (d : Day) :
    List TimeSlot → Except JsError (Option (Day × TimeSlot × Nat × Classroom))
  | [] => .ok none
  | s :: rest => do
    match ← findFacultyAndClassroomRun roster type batch classrooms prefs st d s with
    | some fc => pure (some (d, s, fc.1, fc.2))
    | none => findPlacementInSlotsRun roster type batch classrooms prefs st d rest

/-- The day loop of assignSessions at run level. -/
def findPlacementInDaysRun (roster : List FacultyRec) (type : SessionType)
    (batch : Batch) (classrooms : List Classroom) (prefs : List FacultyPref)
    (st : GenState) :
    List Day → Except JsError (Option (Day × TimeSlot × Nat × Classroom))
  | [] => .ok none
  | d :: rest => do
    match ← findPlacementInSlotsRun roster type batch classrooms prefs st d timeSlots with
    | some p => pure (some p)
    | none => findPlacementInDaysRun roster type batch classrooms prefs st rest

/-- assignSessions at run level. -/
def assignSessionsRun (roster : List FacultyRec) (timetableId : Nat)
    (type : SessionType) (sessionsPerWeek : Nat) (subject : Subject)
    (batch : Batch) (requiresLab : Bool) (classrooms : List Classroom)
    (prefs : List FacultyPref) (st : GenState) : Except JsError GenState :=
  match sessionsPerWeek with
  | 0 => .ok st
  | n + 1 => do
    match ← findPlacementInDaysRun roster type batch classrooms prefs st days with
    | none => .ok st
    | some (d, s, f, c) =>
      assignSessionsRun roster timetableId type n subject batch requiresLab
        classrooms prefs (commitPlacement timetableId type subject batch st d s f c)

/-- One (batch, subject) pair at run level. -/
def assignSubjectForBatchRun (roster : List FacultyRec) (timetableId : Nat)
    (classrooms : List Classroom) (facultySubjects : List FacultySubjectRow)
    (batch : Batch) (st : GenState) (subject : Subject) :
    Except JsError GenState := do
  let prefs := facultyPreferencesFor facultySubjects subject.id
  let st1 ← assignSessionsRun roster timetableId .lecture
    subject.lectureHoursPerWeek subject batch false classrooms prefs st
  let st2 ← assignSessionsRun roster timetableId .tutorial
    subject.tutorialHoursPerWeek subject batch false classrooms prefs st1
  assignSessionsRun roster timetableId .practical
    subject.practicalHoursPerWeek subject batch true classrooms prefs st2

/-- The subjects loop at run level. -/
def generateSubjectsRun (roster : List FacultyRec) (timetableId : Nat)
    (classrooms : List Classroom) (facultySubjects : List FacultySubjectRow)
    (batch : Batch) : List Subject → GenState → Except JsError GenState
  | [], st => .ok st
  | subject :: rest, st => do
    let st' ← assignSubjectForBatchRun roster timetableId classrooms
      facultySubjects batch st subject
    generateSubjectsRun roster timetableId classrooms facultySubjects batch
      rest st'

/-- The batches loop at run level. -/
def generateBatchesRun (roster : List FacultyRec) (timetableId : Nat)
    (subjects : List Subject) (classrooms : List Classroom)
    (facultySubjects : List FacultySubjectRow) :
    List Batch → GenState → Except JsError GenState
  | [], st => .ok st
  | batch :: rest, st => do
    let st' ← generateSubjectsRun roster timetableId classrooms
      facultySubjects batch subjects st
    generateBatchesRun roster timetableId subjects classrooms facultySubjects
      rest st'

/-- generateTimetableEntries with the runtime error path: the entry list
of the run, or the TypeError thrown on an uninitialized faculty
occupancy map. -/
def generateTimetableEntriesRun (timetableId : Nat) (batches : List Batch)
    (subjects : List Subject) (faculty : List FacultyRec)
    (classrooms : List Classroom)
    (facultySubjects : List FacultySubjectRow) :
    Except JsError (List TimetableEntry) :=
  (generateBatchesRun faculty timetableId subjects classrooms facultySubjects
    batches initialGenState).map (fun st => st.entries)

/-- Every preference row names a faculty of the roster - precisely the
condition under which no occupancy lookup of a run is undefined. -/
def facultyRosterCovers (faculty : List FacultyRec)
    (facultySubjects : List FacultySubjectRow) : Prop :=
  ∀ r ∈ facultySubjects, ∃ f ∈ faculty, f.id = r.facultyId

instance : ∀ faculty facultySubjects,
    Decidable (facultyRosterCovers faculty facultySubjects) := fun _ _ => by
  unfold facultyRosterCovers; exact inferInstance

/-! ### The generate route -/

/-- Error outcomes of the embedded routes (HTTP status classes). -/
inductive RouteError where
  | notFound | badRequest | forbidden | serverError
deriving DecidableEq, Repr

/-- Success payload of POST /api/timetables/:id/generate: the route
responds with the created-entry count only. -/
structure GenerateResponse where
  entriesCount : Nat
deriving DecidableEq, Repr

/-- POST /api/timetables/:id/generate, after the timetable lookup and the
authorization checks (collaborators outside the engine): rejects
approved/published timetables and empty catalogs, otherwise discards the
old entries and runs the generator; a TypeError thrown by the run is
caught, the transaction rolls back and the route 500s, otherwise it
responds with the entry count. -/
def generateRoute (timetableId : Nat) (timetableStatus : String)
    (batches : List Batch) (subjects : List Subject)
    (faculty : List FacultyRec) (classrooms : List Classroom)
    (facultySubjects : List FacultySubjectRow) :
    Except RouteError GenerateResponse :=
  if timetableStatus == "approved" || timetableStatus == "published" then
    .error .badRequest
  else if batches.isEmpty then .error .badRequest
  else if subjects.isEmpty then .error .badRequest
  else if faculty.isEmpty then .error .badRequest
  else if classrooms.isEmpty then .error .badRequest
  else
    match generateTimetableEntriesRun timetableId batches subjects faculty
      classrooms facultySubjects with
    | .error _ => .error .serverError
    | .ok entries => .ok ⟨entries.length⟩

/-- Specification-side count (spec section 4.4): the number of requirement
units demanded by the inputs, one per session-kind hour of every
(batch, subject) pair.  The source computes no such number. -/
def totalRequiredUnits (batches : List Batch) (subjects : List Subject) : Nat :=
  batches.length *
    (subjects.map
      (fun s => s.lectureHoursPerWeek + s.tutorialHoursPerWeek +
        s.practicalHoursPerWeek)).sum

/-- Specification-side unassigned count (spec section 4.4): required units
not placed by the run.  Each generated entry consumes exactly one unit,
so this is the required total minus the entry count. -/
def unassignedCountSpec (timetableId : Nat) (batches : List Batch)
    (subjects : List Subject) (faculty : List FacultyRec)
    (classrooms : List Classroom)
    (facultySubjects : List FacultySubjectRow) : Nat :=
  totalRequiredUnits batches subjects -
    (generateTimetableEntries timetableId batches subjects faculty
      classrooms facultySubjects).length

/-! ### The conflict checker and the manual entry routes -/

/-- The four time-window clauses written (with explanatory comments) in
the first Op.or block of checkTimetableConflicts, against an existing
row with times es-ee and a candidate with times cs-ce.  Their union is
exactly proper interval overlap.  In the source this block is dead: the
object literal assigns the computed key Op.or twice, and the second
assignment (the resource disjunction) overwrites this one. -/
def sqlOverlapClauses (cs ce es ee : Nat) : Bool :=
  (es < ce && cs ≤ es) || (ee ≤ ce && cs < ee) ||
    (cs ≤ es && ee ≤ ce) || (es ≤ cs && ce ≤ ee)

/-- checkTimetableConflicts of the timetable routes file, with the
effective where clause.  The JavaScript object literal contains the key
Op.or twice - first the four time-window clauses, then the
faculty/batch/classroom disjunction - and a duplicated computed key keeps
only the last value, so the committed query filters on timetable, day and
shared resource with no time condition at all.  The startTime and endTime
arguments are therefore never consulted. -/
def checkTimetableConflicts (entries : List TimetableEntry)
    (timetableId : Nat) (day : Day) (startTime endTime : Nat)
    (facultyId batchId classroomId : Nat)
    (excludeEntryId : Option Nat) : List TimetableEntry :=
  let _ := (startTime, endTime)
  entries.filter fun e =>
    e.timetableId == timetableId && e.day == day &&
      (e.facultyId == facultyId || e.batchId == batchId ||
        e.classroomId == classroomId) &&
      (match excludeEntryId with
       | some i => e.id != i
       | none => true)

/-- Interval conflict rule of the specification (section 4.1):
candidate.start < existing.end AND candidate.end > existing.start,
half-open, so touching endpoints do not overlap. -/
def specOverlap (cs ce es ee : Nat) : Prop := cs < ee ∧ es < ce

instance : ∀ cs ce es ee, Decidable (specOverlap cs ce es ee) := fun _ _ _ _ => by
  unfold specOverlap; exact inferInstance

/-- Resource sharing along any of the three axes. -/
def sharesResource (a b : TimetableEntry) : Prop :=
  a.facultyId = b.facultyId ∨ a.batchId = b.batchId ∨
    a.classroomId = b.classroomId

instance : ∀ a b, Decidable (sharesResource a b) := fun _ _ => by
  unfold sharesResource; exact inferInstance

/-- The committed-assignment invariant of the specification (sections 3
and 8): two entries of the same timetable on the same day that share a
resource have non-overlapping (half-open) time intervals. -/
def committedNoConflict (a b : TimetableEntry) : Prop :=
  (a.timetableId = b.timetableId ∧ a.day = b.day ∧ sharesResource a b) →
    ¬ specOverlap a.startTime a.endTime b.startTime b.endTime

instance : ∀ a b, Decidable (committedNoConflict a b) := fun _ _ => by
  unfold committedNoConflict; exact inferInstance

/-- A set of committed entries satisfying the invariant pairwise. -/
def ConflictFree (entries : List TimetableEntry) : Prop :=
  entries.Pairwise committedNoConflict

instance : ∀ entries, Decidable (ConflictFree entries) := fun entries => by
  unfold ConflictFree; exact inferInstance

/-- Result of POST /api/timetables/:id/entries. -/
inductive AddEntryResult where
  | stateError
  | conflictError (conflicts : List TimetableEntry)
  | created (entry : TimetableEntry)
deriving DecidableEq, Repr

/-- POST /api/timetables/:id/entries, after lookup/authorization and the
required-field validation: rejects published timetables, consults
checkTimetableConflicts, and otherwise creates the entry (type defaults
to lecture; newId stands for the database-generated primary key). -/
def addTimetableEntry (entries : List TimetableEntry) (timetableId : Nat)
    (timetableStatus : String) (day : Day) (startTime endTime : Nat)
    (subjectId facultyId batchId classroomId : Nat)
    (type : Option SessionType) (newId : Nat) : AddEntryResult :=
  if timetableStatus == "published" then .stateError
  else
    let conflicts := checkTimetableConflicts entries timetableId day
      startTime endTime facultyId batchId classroomId none
    if conflicts.isEmpty then
      .created ⟨newId, timetableId, day, startTime, endTime, subjectId,
        facultyId, batchId, classroomId, type.getD .lecture⟩
    else .conflictError conflicts

/-- Result of PUT /api/timetables/:id/entries/:entryId. -/
inductive UpdateEntryResult where
  | stateError
  | notFound
  | conflictError (conflicts : List TimetableEntry)
  | updated (entries : List TimetableEntry)
deriving DecidableEq, Repr

/-- The merged entry of the update route: each provided field replaces the
stored one (JavaScript field || entry.field). -/
def mergeEntry (e : TimetableEntry) (day : Option Day)
    (startTime endTime subjectId facultyId batchId classroomId : Option Nat)
    (type : Option SessionType) : TimetableEntry :=
  { e with
    day := day.getD e.day,
    startTime := startTime.getD e.startTime,
    endTime := endTime.getD e.endTime,
    subjectId := subjectId.getD e.subjectId,
    facultyId := facultyId.getD e.facultyId,
    batchId := batchId.getD e.batchId,
    classroomId := classroomId.getD e.classroomId,
    type := type.getD e.type }

/-- PUT /api/timetables/:id/entries/:entryId, after lookup/authorization:
rejects published timetables, finds the entry inside this timetable,
re-runs checkTimetableConflicts on the merged values (excluding the entry
itself) whenever any of day, startTime, endTime, facultyId, batchId or
classroomId is provided, and commits the merged entry. -/
def updateTimetableEntry (entries : List TimetableEntry) (timetableId : Nat)
    (timetableStatus : String) (entryId : Nat) (day : Option Day)
    (startTime endTime subjectId facultyId batchId classroomId : Option Nat)
    (type : Option SessionType) : UpdateEntryResult :=
  if timetableStatus == "published" then .stateError
  else
    match entries.find? (fun e => e.id == entryId && e.timetableId == timetableId) with
    | none => .notFound
    | some e =>
      let merged := mergeEntry e day startTime endTime subjectId facultyId
        batchId classroomId type
      if day.isSome || startTime.isSome || endTime.isSome ||
          facultyId.isSome || batchId.isSome || classroomId.isSome then
        let conflicts := checkTimetableConflicts entries timetableId
          merged.day merged.startTime merged.endTime merged.facultyId
          merged.batchId merged.classroomId (some entryId)
        if conflicts.isEmpty then
          .updated (entries.map fun x => if x.id == entryId then merged else x)
        else .conflictError conflicts
      else
        .updated (entries.map fun x => if x.id == entryId then merged else x)

/-! ### The substitution routes -/

/-- Substitution model row (fields used by the engine).  The column
substituteFacultyId is declared allowNull false in the model; the routes
nevertheless treat it as nullable, so it is an Option here and the
not-null constraint is enforced where the model would enforce it (at
Substitution.create). -/
structure Substitution where
  id : Nat
  timetableEntryId : Nat
  originalFacultyId : Nat
  substituteFacultyId : Option Nat
  date : Nat
  leaveRequestId : Option Nat
  status : String
  notificationSent : Bool
deriving DecidableEq, Repr

/-- The status enum declared on the Substitution model:
ENUM(pending, accepted, rejected). -/
def substitutionStatusEnumValues : List String :=
  ["pending", "accepted", "rejected"]

/-- Status literal written by the decline route (substitution routes,
status update after the guards). -/
def declineStatusWrite : String := "declined"

/-- Status literal written by the assign route (substitution routes,
status update after the conflict query). -/
def assignStatusWrite : String := "assigned"

/-- Day-of-week (getDay / EXTRACT(DOW) convention, 0 = Sunday) of a date
modeled as days since 1970-01-01, a Thursday. -/
def dateDow (date : Nat) : Nat := (date + 4) % 7

/-- The seven-name daysOfWeek array of the leave-route helpers, indexed by
getDay. -/
def dowToDay (n : Nat) : Day :=
  match n % 7 with
  | 0 => .sunday
  | 1 => .monday
  | 2 => .tuesday
  | 3 => .wednesday
  | 4 => .thursday
  | 5 => .friday
  | _ => .saturday

/-- Database-level errors surfacing as rolled-back transactions. -/
inductive SqlError where
  | noOperatorEnumEqNumeric
  | notNullViolation
  | invalidEnumInput
deriving DecidableEq, Repr

/-- Operator resolution for the where clause
day = EXTRACT(DOW FROM TIMESTAMP ...) used by the accept and assign
conflict queries.  The day column is the PostgreSQL enum
ENUM(Monday..Saturday) while EXTRACT yields a numeric value; PostgreSQL
resolves operators while parsing the query and has no equality operator
between an enum type and a numeric type, so the query raises error 42883
before reading any row.  (Independently, substitution.date is a DATEONLY
string in Sequelize, so the toISOString call building the literal throws
as well.)  The embedded resolution therefore fails unconditionally. -/
def resolveDayEqDowOperator : Except SqlError (Day → Nat → Bool) :=
  .error .noOperatorEnumEqNumeric

/-- The conflict re-check query of the accept (and assign) substitution
routes: the accepting faculty, the weekday of the offer date, and the
four time-window Op.or clauses against the offered entry interval
cs-ce.  Its row filter is exactly the intended conflict detector, but
operator resolution for the day condition fails (see
resolveDayEqDowOperator), so the query always errors. -/
def acceptConflictQuery (entries : List TimetableEntry) (facultyId : Nat)
    (cs ce : Nat) (dow : Nat) : Except SqlError (List TimetableEntry) := do
  let dayCond ← resolveDayEqDowOperator
  pure (entries.filter fun e =>
    e.facultyId == facultyId && dayCond e.day dow &&
      sqlOverlapClauses cs ce e.startTime e.endTime)

/-- Database state consulted by the substitution routes. -/
structure SubState where
  substitutions : List Substitution
  timetableEntries : List TimetableEntry
  faculties : List FacultyRec
  facultySubjects : List FacultySubjectRow
  subjects : List Subject
deriving DecidableEq, Repr

/-- Outcome of a substitution route call: a successful commit carries the
new database state; every error path rolls the transaction back, leaving
the state untouched. -/
inductive RouteOutcome where
  | ok (st : SubState)
  | notFound
  | forbidden
  | badRequest
  | conflictError (conflicts : List TimetableEntry)
  | serverError
deriving DecidableEq, Repr

/-- Whether an outcome is a successful commit. -/
def RouteOutcome.isOk : RouteOutcome → Bool
  | .ok _ => true
  | _ => false

/-- PUT /api/substitutions/:id/accept (role check, a collaborator, aside):
resolve the faculty record of the caller and the offer; the caller must
be the addressed substitute or the offer unaddressed; the offer must be
pending; then re-check the caller's schedule for the weekday of the
offer date via acceptConflictQuery, and on no conflict bind the caller
and set the status to accepted. -/
def acceptRoute (st : SubState) (userId : Nat) (subId : Nat) : RouteOutcome :=
  match st.faculties.find? (fun f => f.userId == userId) with
  | none => .notFound
  | some fac =>
    match st.substitutions.find? (fun s => s.id == subId) with
    | none => .notFound
    | some sub =>
      if sub.substituteFacultyId != some fac.id &&
          sub.substituteFacultyId != none then .forbidden
      else if sub.status != "pending" then .badRequest
      else
        match st.timetableEntries.find? (fun e => e.id == sub.timetableEntryId) with
        | none => .serverError
        | some entry =>
          match acceptConflictQuery st.timetableEntries fac.id
            entry.startTime entry.endTime (dateDow sub.date) with
          | .error _ => .serverError
          | .ok conflicts =>
            if !conflicts.isEmpty then .conflictError conflicts
            else
              .ok { st with substitutions := st.substitutions.map (fun s =>
                if s.id == subId then
                  { s with
                      substituteFacultyId := some fac.id
                      status := "accepted"
                      notificationSent := true }
                else s) }

/-- The potential-substitutes SQL query of the decline route: active
FacultySubjects rows for the subject, joined to same-department faculty,
excluding the original faculty and the faculty now declining, ordered by
preference descending (LIMIT 1 is taken by the caller via head?). -/
def potentialSubstitutesQuery (facultySubjects : List FacultySubjectRow)
    (faculties : List FacultyRec) (department : String) (subjectId : Nat)
    (originalFacultyId currentFacultyId : Nat) : List FacultyPref :=
  orderByPreferenceDesc <|
    facultySubjects.filterMap fun r =>
      if r.subjectId == subjectId && r.isActive &&
          r.facultyId != originalFacultyId &&
          r.facultyId != currentFacultyId then
        match faculties.find? (fun f => f.id == r.facultyId) with
        | some f =>
          if f.department == department then
            some ⟨r.facultyId, r.preference⟩
          else none
        | none => none
      else none

/-- PUT /api/substitutions/:id/decline: the caller must be the addressed
substitute of a pending offer; the offer status is set to declined; then
the next potential substitute (excluding only the original faculty and
the caller) is looked up, and if one exists the same offer is
re-addressed to it with status pending; otherwise the offer is left
declined with the substitute unchanged.  This function captures the
attempted Sequelize-level writes with the record store modeled
permissively, to exhibit the written literals; the declined literal is
not among the values of the status enum of the model, and
declineRouteDb below enforces that column constraint the way the
database does. -/
def declineRoute (st : SubState) (userId : Nat) (subId : Nat) : RouteOutcome :=
  match st.faculties.find? (fun f => f.userId == userId) with
  | none => .notFound
  | some fac =>
    match st.substitutions.find? (fun s => s.id == subId) with
    | none => .notFound
    | some sub =>
      if sub.substituteFacultyId != some fac.id then .forbidden
      else if sub.status != "pending" then .badRequest
      else
        let subs1 := st.substitutions.map fun s =>
          if s.id == subId then
            { s with
                status := "declined"
                notificationSent := true }
          else s
        match st.timetableEntries.find? (fun e => e.id == sub.timetableEntryId) with
        | none => .serverError
        | some entry =>
          match st.subjects.find? (fun x => x.id == entry.subjectId) with
          | none => .ok { st with substitutions := subs1 }
          | some subject =>
            match st.faculties.find? (fun f => f.id == sub.originalFacultyId) with
            | none => .serverError
            | some origFac =>
              match (potentialSubstitutesQuery st.facultySubjects st.faculties
                  origFac.department subject.id sub.originalFacultyId fac.id).head? with
              | some cand =>
                .ok { st with substitutions := subs1.map (fun s =>
                  if s.id == subId then
                    { s with
                        substituteFacultyId := some cand.facultyId
                        status := "pending"
                        notificationSent := false }
                  else s) }
              | none => .ok { st with substitutions := subs1 }

/-- One substitution.update call writing a status value (among other
fields, applied by f to the matching row): PostgreSQL accepts the write
only when the written status literal is a declared value of the status
enum; otherwise the statement fails with invalid input value for enum
and the surrounding transaction rolls back. -/
def updateSubstitution (subs : List Substitution) (subId : Nat)
    (f : Substitution → Substitution) (newStatus : String) :
    Except SqlError (List Substitution) :=
  if newStatus ∈ substitutionStatusEnumValues then
    .ok (subs.map fun s => if s.id == subId then f s else s)
  else .error .invalidEnumInput

/-- PUT /api/substitutions/:id/decline with the database constraint on
the status column enforced at every update, as PostgreSQL enforces it:
the same guards and control flow as declineRoute, but each
substitution.update is checked against the status enum.  Because
declined is not among ENUM(pending, accepted, rejected), the first
update - the one setting status declined - always fails, so every
decline that passes the guards ends in a rolled-back transaction and a
500, and the re-address cascade below that update is dead code at
runtime. -/
def declineRouteDb (st : SubState) (userId : Nat) (subId : Nat) : RouteOutcome :=
  match st.faculties.find? (fun f => f.userId == userId) with
  | none => .notFound
  | some fac =>
    match st.substitutions.find? (fun s => s.id == subId) with
    | none => .notFound
    | some sub =>
      if sub.substituteFacultyId != some fac.id then .forbidden
      else if sub.status != "pending" then .badRequest
      else
        match updateSubstitution st.substitutions subId
            (fun s =>
              { s with
                  status := "declined"
                  notificationSent := true })
            "declined" with
        | .error _ => .serverError
        | .ok subs1 =>
          match st.timetableEntries.find? (fun e => e.id == sub.timetableEntryId) with
          | none => .serverError
          | some entry =>
            match st.subjects.find? (fun x => x.id == entry.subjectId) with
            | none => .ok { st with substitutions := subs1 }
            | some subject =>
              match st.faculties.find? (fun f => f.id == sub.originalFacultyId) with
              | none => .serverError
              | some origFac =>
                match (potentialSubstitutesQuery st.facultySubjects st.faculties
                    origFac.department subject.id sub.originalFacultyId fac.id).head? with
                | some cand =>
                  match updateSubstitution subs1 subId
                      (fun s =>
                        { s with
                            substituteFacultyId := some cand.facultyId
                            status := "pending"
                            notificationSent := false })
                      "pending" with
                  | .error _ => .serverError
                  | .ok subs2 => .ok { st with substitutions := subs2 }
                | none => .ok { st with substitutions := subs1 }

/-! ### The leave routes -/

/-- Timetable model row (fields consulted by the leave routes when
collecting affected entries). -/
structure Timetable where
  id : Nat
  startDate : Nat
  endDate : Nat
  status : String
  isActive : Bool
deriving DecidableEq, Repr

/-- LeaveRequest model row (fields used by the engine). -/
structure LeaveRequestRec where
  id : Nat
  facultyId : Nat
  startDate : Nat
  endDate : Nat
  status : String
deriving DecidableEq, Repr

/-- getDaysOfWeekBetweenDates of the leave routes: the distinct weekday
names occurring between the two dates inclusive. -/
def getDaysOfWeekBetweenDates (startDate endDate : Nat) : List Day :=
  ((List.range (endDate + 1 - startDate)).map
    (fun i => dowToDay (dateDow (startDate + i)))).dedup

/-- getDatesByDayOfWeek of the leave routes: every concrete date between
the two dates inclusive falling on the given weekday. -/
def getDatesByDayOfWeek (day : Day) (startDate endDate : Nat) : List Nat :=
  (List.range (endDate + 1 - startDate)).filterMap fun i =>
    if dowToDay (dateDow (startDate + i)) = day then some (startDate + i)
    else none

/-- The affected-entries query of POST /api/leaves: entries of the faculty
inside a published, active timetable whose date range meets the leave
range, on a weekday occurring within the leave range. -/
def affectedEntriesFor (entries : List TimetableEntry)
    (timetables : List Timetable) (facultyId : Nat)
    (startDate endDate : Nat) : List TimetableEntry :=
  entries.filter fun e =>
    e.facultyId == facultyId &&
      (timetables.any fun t =>
        t.id == e.timetableId && t.startDate ≤ endDate &&
          startDate ≤ t.endDate && t.status == "published" && t.isActive) &&
      (getDaysOfWeekBetweenDates startDate endDate).contains e.day

/-- The potential-substitutes SQL query of POST /api/leaves: like the
decline-route query but excluding only the faculty going on leave. -/
def leaveCandidatesQuery (facultySubjects : List FacultySubjectRow)
    (faculties : List FacultyRec) (department : String) (subjectId : Nat)
    (facultyId : Nat) : List FacultyPref :=
  orderByPreferenceDesc <|
    facultySubjects.filterMap fun r =>
      if r.subjectId == subjectId && r.isActive &&
          r.facultyId != facultyId then
        match faculties.find? (fun f => f.id == r.facultyId) with
        | some f =>
          if f.department == department then
            some ⟨r.facultyId, r.preference⟩
          else none
        | none => none
      else none

/-- The substitution-creation block of POST /api/leaves: group the
affected entries by subject (object keys keep first-appearance order),
look the potential substitutes up once per subject, and create one
Substitution per (entry, matching concrete date), addressed to the
top-ranked candidate when one exists and to null otherwise.  A null
substituteFacultyId violates the allowNull false declaration of the
model, so the create throws and the surrounding transaction rolls the
whole leave request back; creating rows first and failing on a later one
has the same net effect, which the trailing all-or-error check models. -/
def createLeaveSubstitutions (entries : List TimetableEntry)
    (timetables : List Timetable) (facultySubjects : List FacultySubjectRow)
    (faculties : List FacultyRec) (facultyId : Nat) (department : String)
    (startDate endDate : Nat) (leaveRequestId : Nat) :
    Except SqlError (List Substitution) :=
  let affected := affectedEntriesFor entries timetables facultyId startDate endDate
  let subjectIds := (affected.map (fun e => e.subjectId)).dedup
  let subs := subjectIds.flatMap fun sid =>
    let cands := leaveCandidatesQuery facultySubjects faculties department
      sid facultyId
    (affected.filter (fun e => e.subjectId == sid)).flatMap fun e =>
      (getDatesByDayOfWeek e.day startDate endDate).map fun d =>
        { id := 0
          timetableEntryId := e.id
          originalFacultyId := facultyId
          substituteFacultyId := cands.head?.map (fun c => c.facultyId)
          date := d
          leaveRequestId := some leaveRequestId
          status := "pending"
          notificationSent := false }
  if subs.all (fun s => s.substituteFacultyId != none) then .ok subs
  else .error .notNullViolation

/-- PUT /api/leaves/:id/approve, after lookup/authorization: only pending
leaves can be approved; the leave becomes approved, and every existing
Substitution of this leave has its status set to pending.  No
substitution is created here - creation happened in POST /api/leaves. -/
def approveLeaveRoute (leaves : List LeaveRequestRec)
    (substitutions : List Substitution) (leaveId : Nat) :
    Except RouteError (List LeaveRequestRec × List Substitution) :=
  match leaves.find? (fun l => l.id == leaveId) with
  | none => .error .notFound
  | some lr =>
    if lr.status != "pending" then .error .badRequest
    else
      .ok (leaves.map (fun l =>
             if l.id == leaveId then { l with status := "approved" } else l),
           substitutions.map fun s =>
             if s.leaveRequestId == some leaveId then
               { s with status := "pending" }
             else s)

/-! ### Invariants of a generation run -/

/-- Slot key of a committed entry, as recorded in the occupancy maps. -/
def entrySlotKey (e : TimetableEntry) : Nat × Nat := (e.startTime, e.endTime)

/-- Every committed entry is recorded in all three occupancy maps under
its resource ids, day and slot key. -/
def occConsistent (st : GenState) : Prop :=
  ∀ e ∈ st.entries,
    (e.facultyId, e.day, entrySlotKey e) ∈ st.occFaculty ∧
      (e.batchId, e.day, entrySlotKey e) ∈ st.occBatch ∧
      (e.classroomId, e.day, entrySlotKey e) ∈ st.occClassroom

/-- The interval of an entry is one of the catalog slots. -/
def slotFromCatalog (e : TimetableEntry) : Prop :=
  TimeSlot.mk e.startTime e.endTime ∈ timeSlots

instance : ∀ e, Decidable (slotFromCatalog e) := fun _ => by
  unfold slotFromCatalog; exact inferInstance

/-- Two entries on the same day sharing a resource sit in different
catalog slots. -/
def distinctSlotKeys (a b : TimetableEntry) : Prop :=
  (a.day = b.day ∧ sharesResource a b) → entrySlotKey a ≠ entrySlotKey b

/-- The classroom of an entry comes from the catalog, has the lab flag
dictated by the session type, and fits the strength of the batch of the
entry. -/
def roomFits (classrooms : List Classroom) (batches : List Batch)
    (e : TimetableEntry) : Prop :=
  ∃ c ∈ classrooms, c.id = e.classroomId ∧
    (e.type = .practical → c.isLab = true) ∧
    (e.type ≠ .practical → c.isLab = false) ∧
    ∃ b ∈ batches, b.id = e.batchId ∧ b.strength ≤ c.capacity

/-- Inductive invariant carried through one generation run. -/
def GenInv (classrooms : List Classroom) (batches : List Batch)
    (st : GenState) : Prop :=
  occConsistent st ∧ (∀ e ∈ st.entries, slotFromCatalog e) ∧
    st.entries.Pairwise distinctSlotKeys ∧
    ∀ e ∈ st.entries, roomFits classrooms batches e

/-! ### Concrete scenario data

Small concrete database states used to evaluate the embedded routes:
a CS department with batch 20 (strength 60), subjects 5 (lecture) and 6
(two practical hours), faculty records 1, 2, 3 and 10, a regular
classroom 30 (capacity 70), an undersized classroom 32 (capacity 10) and
a committed Monday 10:00-11:00 entry 7 of faculty 1. -/

def demoBatch : Batch := ⟨20, 60⟩

def demoSubjectDS : Subject := ⟨5, 1, 0, 0⟩

def demoSubjectLab : Subject := ⟨6, 0, 0, 2⟩

def demoFaculty : FacultyRec := ⟨10, 101, "CS"⟩

def demoRoom : Classroom := ⟨30, 70, false⟩

def smallRoom : Classroom := ⟨32, 10, false⟩

def demoFS : FacultySubjectRow := ⟨10, 5, 9, true⟩

/-- Existing committed entry: Monday 10:00-11:00, faculty 10, batch 20,
classroom 30, in timetable 1. -/
def c1existing : TimetableEntry := ⟨1, 1, .monday, 600, 660, 5, 10, 20, 30, .lecture⟩

/-- Committed Monday 10:00-11:00 entry 7 of faculty 1 in timetable 1. -/
def c3entry : TimetableEntry := ⟨7, 1, .monday, 600, 660, 5, 1, 20, 30, .lecture⟩

/-- Pending offer 1 for entry 7 on date 4 (Monday 1970-01-05), original
faculty 1, addressed to faculty 2, from leave request 3. -/
def pendingOffer : Substitution := ⟨1, 7, 1, some 2, 4, some 3, "pending", false⟩

/-- State for the accept run: the addressed faculty 2 (user 102) has no
committed entries of its own, so the intended conflict detector would
find nothing and the accept should succeed. -/
def c3state : SubState :=
  ⟨[pendingOffer], [c3entry], [⟨1, 101, "CS"⟩, ⟨2, 102, "CS"⟩], [], [⟨5, 3, 0, 0⟩]⟩

/-- State for the decline run with no further candidate: only faculty 2
is eligible for subject 5. -/
def c4state : SubState :=
  ⟨[pendingOffer], [c3entry], [⟨1, 101, "CS"⟩, ⟨2, 102, "CS"⟩],
    [⟨2, 5, 9, true⟩], [⟨5, 3, 0, 0⟩]⟩

/-- State for a decline run with a further candidate available: faculty 2
(preference 9) and faculty 3 (preference 5) are both eligible for
subject 5, and the offer is addressed to faculty 2 - the configuration
in which the would-be re-address branch of the decline route applies. -/
def c4bstate : SubState :=
  ⟨[pendingOffer], [c3entry],
    [⟨1, 101, "CS"⟩, ⟨2, 102, "CS"⟩, ⟨3, 103, "CS"⟩],
    [⟨2, 5, 9, true⟩, ⟨3, 5, 5, true⟩], [⟨5, 3, 0, 0⟩]⟩

/-- Published timetable 1 spanning dates 0 to 100. -/
def c6timetable : Timetable := ⟨1, 0, 100, "published", true⟩

/-- Pending leave request 3 of faculty 1 covering dates 0 to 6 (a full
week, so the Monday of entry 7 falls in range exactly once, on date 4). -/
def c6leave : LeaveRequestRec := ⟨3, 1, 0, 6, "pending"⟩

/-! ## Theorems -/

/-! ### Sorting lemmas -/

theorem jsSortByPreferenceDesc_perm (l : List FacultyPref) :
    (jsSortByPreferenceDesc l).Perm l := by
  unfold jsSortByPreferenceDesc
  have h := (List.perm_insertionSort prefLE l.enum).map Prod.snd
  rwa [List.enum_map_snd] at h

theorem jsSortByPreferenceDesc_pairwise (l : List FacultyPref) :
    (List.insertionSort prefLE l.enum).Pairwise prefLE :=
  List.sorted_insertionSort prefLE l.enum

theorem orderByPreferenceDesc_head_max {l : List FacultyPref} {c : FacultyPref}
    (h : (orderByPreferenceDesc l).head? = some c) :
    c ∈ l ∧ ∀ x ∈ l, x.preference ≤ c.preference := by
  unfold orderByPreferenceDesc at h
  obtain ⟨ys, hys⟩ := List.head?_eq_some_iff.mp h
  have hperm := List.perm_insertionSort prefGE l
  have hsorted := List.sorted_insertionSort prefGE l
  rw [hys] at hperm hsorted
  constructor
  · exact hperm.mem_iff.mp (List.mem_cons_self c ys)
  · intro x hx
    rcases List.mem_cons.mp (hperm.mem_iff.mpr hx) with h | h
    · exact le_of_eq (h ▸ rfl)
    · exact List.rel_of_sorted_cons hsorted x h

/-! ### Generator invariant lemmas -/

theorem isSlotAssigned_eq_false_iff {occ : Occupancy} {rid : Nat} {d : Day}
    {s : TimeSlot} :
    isSlotAssigned occ rid d s = false ↔ (rid, d, slotKey s) ∉ occ := by
  unfold isSlotAssigned
  exact decide_eq_false_iff_not

theorem findClassroom_eq_some {type : SessionType} {batch : Batch}
    {classrooms : List Classroom} {occ : Occupancy} {d : Day} {s : TimeSlot}
    {c : Classroom}
    (h : findClassroom type batch classrooms occ d s = some c) :
    c ∈ classrooms ∧ (type = .practical → c.isLab = true) ∧
      (type ≠ .practical → c.isLab = false) ∧
      isSlotAssigned occ c.id d s = false ∧ batch.strength ≤ c.capacity := by
  unfold findClassroom at h
  have hmem := List.mem_of_find?_eq_some h
  have hp := List.find?_some h
  simp only [Bool.and_eq_true, Bool.not_eq_true', decide_eq_true_eq] at hp
  obtain ⟨⟨hlab, hfree⟩, hcap⟩ := hp
  refine ⟨hmem, ?_, ?_, hfree, hcap⟩
  · intro ht
    simpa [ht] using hlab
  · intro ht
    have hne : (type == SessionType.practical) = false :=
      beq_eq_false_iff_ne.mpr ht
    simpa [hne] using hlab

theorem findFacultyAndClassroom_eq_some {type : SessionType} {batch : Batch}
    {classrooms : List Classroom} {prefs : List FacultyPref} {st : GenState}
    {d : Day} {s : TimeSlot} {f : Nat} {c : Classroom}
    (h : findFacultyAndClassroom type batch classrooms prefs st d s = some (f, c)) :
    (∃ fp ∈ prefs, fp.facultyId = f) ∧
      isSlotAssigned st.occFaculty f d s = false ∧
      isSlotAssigned st.occBatch batch.id d s = false ∧
      findClassroom type batch classrooms st.occClassroom d s = some c := by
  unfold findFacultyAndClassroom at h
  rw [List.findSome?_eq_some_iff] at h
  obtain ⟨l1, fp, l2, hsplit, hfp, -⟩ := h
  have hmem : fp ∈ prefs := by
    rw [hsplit]; exact List.mem_append_right l1 (List.mem_cons_self fp l2)
  by_cases h1 : isSlotAssigned st.occFaculty fp.facultyId d s
  · simp [h1] at hfp
  by_cases h2 : isSlotAssigned st.occBatch batch.id d s
  · simp [h1, h2] at hfp
  rcases hcr : findClassroom type batch classrooms st.occClassroom d s with - | c'
  · simp [h1, h2, hcr] at hfp
  · have heq : (fp.facultyId, c') = (f, c) := by
      simpa [h1, h2, hcr] using hfp
    rw [Prod.mk.injEq] at heq
    refine ⟨⟨fp, hmem, heq.1⟩, ?_, ?_, ?_⟩
    · exact heq.1 ▸ (by simpa using h1)
    · simpa using h2
    · exact congrArg some heq.2

theorem findPlacement_eq_some {type : SessionType} {batch : Batch}
    {classrooms : List Classroom} {prefs : List FacultyPref} {st : GenState}
    {d : Day} {s : TimeSlot} {f : Nat} {c : Classroom}
    (h : findPlacement type batch classrooms prefs st = some (d, s, f, c)) :
    s ∈ timeSlots ∧
      findFacultyAndClassroom type batch classrooms prefs st d s = some (f, c) := by
  unfold findPlacement at h
  rw [List.findSome?_eq_some_iff] at h
  obtain ⟨l1, d', l2, hsplit, hd, -⟩ := h
  rw [List.findSome?_eq_some_iff] at hd
  obtain ⟨m1, s', m2, hsplit2, hs, -⟩ := hd
  rcases hin : findFacultyAndClassroom type batch classrooms prefs st d' s' with - | fc
  · simp [hin] at hs
  · have : (d', s', fc.1, fc.2) = (d, s, f, c) := by simpa [hin] using hs
    have hs'mem : s' ∈ timeSlots := by
      rw [hsplit2]; exact List.mem_append_right m1 (List.mem_cons_self s' m2)
    cases this
    exact ⟨hs'mem, by simpa using hin⟩

theorem commitPlacement_inv {classrooms : List Classroom} {batches : List Batch}
    {timetableId : Nat} {type : SessionType} {subject : Subject} {batch : Batch}
    {st : GenState} {d : Day} {s : TimeSlot} {f : Nat} {c : Classroom}
    (hb : batch ∈ batches) (hs : s ∈ timeSlots)
    (hfac : isSlotAssigned st.occFaculty f d s = false)
    (hbat : isSlotAssigned st.occBatch batch.id d s = false)
    (hroom : findClassroom type batch classrooms st.occClassroom d s = some c)
    (hinv : GenInv classrooms batches st) :
    GenInv classrooms batches
      (commitPlacement timetableId type subject batch st d s f c) := by
  obtain ⟨hocc, hcat, hpw, hfit⟩ := hinv
  obtain ⟨hcmem, hlab1, hlab2, hcfree, hcap⟩ := findClassroom_eq_some hroom
  set e : TimetableEntry :=
    ⟨0, timetableId, d, s.startTime, s.endTime, subject.id, f, batch.id, c.id, type⟩
    with he
  have hek : entrySlotKey e = slotKey s := rfl
  refine ⟨?_, ?_, ?_, ?_⟩
  · intro x hx
    rcases List.mem_append.mp hx with hx | hx
    · obtain ⟨h1, h2, h3⟩ := hocc x hx
      exact ⟨List.mem_cons_of_mem _ h1, List.mem_cons_of_mem _ h2,
        List.mem_cons_of_mem _ h3⟩
    · have hxe : x = e := by simpa using hx
      subst hxe
      exact ⟨List.mem_cons_self .., List.mem_cons_self .., List.mem_cons_self ..⟩
  · intro x hx
    rcases List.mem_append.mp hx with hx | hx
    · exact hcat x hx
    · have hxe : x = e := by simpa using hx
      subst hxe
      show TimeSlot.mk s.startTime s.endTime ∈ timeSlots
      simpa using hs
  · rw [commitPlacement, List.pairwise_append]
    refine ⟨hpw, by simp, ?_⟩
    intro a ha b hb'
    have hbe : b = e := by simpa using hb'
    subst hbe
    intro ⟨hday, hshare⟩ hkeq
    obtain ⟨ho1, ho2, ho3⟩ := hocc a ha
    rcases hshare with hsh | hsh | hsh
    · apply isSlotAssigned_eq_false_iff.mp hfac
      have : (a.facultyId, a.day, entrySlotKey a) ∈ st.occFaculty := ho1
      rwa [hsh, hday, hkeq, hek] at this
    · apply isSlotAssigned_eq_false_iff.mp hbat
      have : (a.batchId, a.day, entrySlotKey a) ∈ st.occBatch := ho2
      rwa [hsh, hday, hkeq, hek] at this
    · apply isSlotAssigned_eq_false_iff.mp hcfree
      have : (a.classroomId, a.day, entrySlotKey a) ∈ st.occClassroom := ho3
      rwa [hsh, hday, hkeq, hek] at this
  · intro x hx
    rcases List.mem_append.mp hx with hx | hx
    · exact hfit x hx
    · have hxe : x = e := by simpa using hx
      subst hxe
      exact ⟨c, hcmem, rfl, hlab1, hlab2, batch, hb, rfl, hcap⟩

theorem assignSessions_inv {classrooms : List Classroom} {batches : List Batch}
    {timetableId : Nat} {type : SessionType} {subject : Subject} {batch : Batch}
    {requiresLab : Bool} {prefs : List FacultyPref}
    (hb : batch ∈ batches) :
    ∀ (n : Nat) (st : GenState), GenInv classrooms batches st →
      GenInv classrooms batches
        (assignSessions timetableId type n subject batch requiresLab
          classrooms prefs st) := by
  intro n
  induction n with
  | zero => intro st h; exact h
  | succ n ih =>
    intro st h
    rw [assignSessions]
    rcases hp : findPlacement type batch classrooms prefs st with - | ⟨d, s, f, c⟩
    · exact h
    · obtain ⟨hs, hffc⟩ := findPlacement_eq_some hp
      obtain ⟨-, hfac, hbat, hroom⟩ := findFacultyAndClassroom_eq_some hffc
      exact ih _ (commitPlacement_inv hb hs hfac hbat hroom h)

theorem assignSubjectForBatch_inv {classrooms : List Classroom}
    {batches : List Batch} {timetableId : Nat}
    {facultySubjects : List FacultySubjectRow} {batch : Batch} {st : GenState}
    {subject : Subject} (hb : batch ∈ batches)
    (h : GenInv classrooms batches st) :
    GenInv classrooms batches
      (assignSubjectForBatch timetableId classrooms facultySubjects batch st subject) := by
  unfold assignSubjectForBatch
  exact assignSessions_inv hb _ _ (assignSessions_inv hb _ _ (assignSessions_inv hb _ _ h))

theorem generateTimetableEntries_inv (timetableId : Nat) (batches : List Batch)
    (subjects : List Subject) (faculty : List FacultyRec)
    (classrooms : List Classroom) (facultySubjects : List FacultySubjectRow) :
    GenInv classrooms batches
      (batches.foldl
        (fun st batch =>
          subjects.foldl
            (assignSubjectForBatch timetableId classrooms facultySubjects batch)
            st)
        initialGenState) := by
  have hinner : ∀ (batch : Batch), batch ∈ batches → ∀ (ss : List Subject)
      (st : GenState), GenInv classrooms batches st →
      GenInv classrooms batches
        (ss.foldl (assignSubjectForBatch timetableId classrooms facultySubjects batch) st) := by
    intro batch hb ss
    induction ss with
    | nil => intro st h; exact h
    | cons x xs ih =>
      intro st h
      exact ih _ (assignSubjectForBatch_inv hb h)
  have houter : ∀ (bs : List Batch), (∀ b ∈ bs, b ∈ batches) → ∀ (st : GenState),
      GenInv classrooms batches st →
      GenInv classrooms batches
        (bs.foldl
          (fun st batch =>
            subjects.foldl
              (assignSubjectForBatch timetableId classrooms facultySubjects batch)
              st)
          st) := by
    intro bs
    induction bs with
    | nil => intro _ st h; exact h
    | cons x xs ih =>
      intro hsub st h
      exact ih (fun b hb => hsub b (List.mem_cons_of_mem x hb)) _
        (hinner x (hsub x (List.mem_cons_self x xs)) subjects st h)
  refine houter batches (fun b hb => hb) initialGenState ?_
  refine ⟨?_, ?_, ?_, ?_⟩ <;> simp [initialGenState, occConsistent]

theorem generateTimetableEntries_entries_inv (timetableId : Nat)
    (batches : List Batch) (subjects : List Subject) (faculty : List FacultyRec)
    (classrooms : List Classroom) (facultySubjects : List FacultySubjectRow) :
    (∀ e ∈ generateTimetableEntries timetableId batches subjects faculty
        classrooms facultySubjects, slotFromCatalog e) ∧
      (generateTimetableEntries timetableId batches subjects faculty
        classrooms facultySubjects).Pairwise distinctSlotKeys ∧
      ∀ e ∈ generateTimetableEntries timetableId batches subjects faculty
        classrooms facultySubjects, roomFits classrooms batches e := by
  obtain ⟨-, h2, h3, h4⟩ := generateTimetableEntries_inv timetableId batches
    subjects faculty classrooms facultySubjects
  exact ⟨h2, h3, h4⟩

/-- Distinct slots of the fixed catalog never overlap (half-open rule):
checked by enumeration of the 49 ordered pairs. -/
theorem timeSlots_disjoint : ∀ s1 ∈ timeSlots, ∀ s2 ∈ timeSlots,
    slotKey s1 ≠ slotKey s2 →
    ¬ specOverlap s1.startTime s1.endTime s2.startTime s2.endTime := by
  decide

/-! ### Conflict-freedom lemmas -/

theorem committedNoConflict_symm {a b : TimetableEntry}
    (h : committedNoConflict a b) : committedNoConflict b a := by
  rintro ⟨h1, h2, h3⟩ hov
  refine h ⟨h1.symm, h2.symm, ?_⟩ ⟨hov.2, hov.1⟩
  rcases h3 with h3 | h3 | h3
  · exact Or.inl h3.symm
  · exact Or.inr (Or.inl h3.symm)
  · exact Or.inr (Or.inr h3.symm)

theorem generateTimetableEntries_conflictFree (timetableId : Nat)
    (batches : List Batch) (subjects : List Subject) (faculty : List FacultyRec)
    (classrooms : List Classroom) (facultySubjects : List FacultySubjectRow) :
    ConflictFree (generateTimetableEntries timetableId batches subjects faculty
      classrooms facultySubjects) := by
  obtain ⟨hcat, hpw, -⟩ := generateTimetableEntries_entries_inv timetableId
    batches subjects faculty classrooms facultySubjects
  refine List.Pairwise.imp_of_mem ?_ hpw
  intro a b ha hb hr
  rintro ⟨-, hday, hshare⟩
  have ha' : TimeSlot.mk a.startTime a.endTime ∈ timeSlots := hcat a ha
  have hb' : TimeSlot.mk b.startTime b.endTime ∈ timeSlots := hcat b hb
  exact timeSlots_disjoint _ ha' _ hb' (hr ⟨hday, hshare⟩)

theorem checkTimetableConflicts_eq_nil {entries : List TimetableEntry}
    {timetableId : Nat} {d : Day} {cs ce : Nat} {f b c : Nat}
    {excl : Option Nat}
    (h : checkTimetableConflicts entries timetableId d cs ce f b c excl = []) :
    ∀ e ∈ entries, e.timetableId = timetableId → e.day = d →
      (e.facultyId = f ∨ e.batchId = b ∨ e.classroomId = c) →
      ∃ i, excl = some i ∧ e.id = i := by
  rw [checkTimetableConflicts, List.filter_eq_nil_iff] at h
  intro e he h1 h2 h3
  have hp := h e he
  rcases excl with - | i
  · exfalso
    apply hp
    rcases h3 with h3 | h3 | h3 <;> simp [h1, h2, h3]
  · by_cases hei : e.id = i
    · exact ⟨i, rfl, hei⟩
    · exfalso
      apply hp
      rcases h3 with h3 | h3 | h3 <;> simp [h1, h2, h3, hei]

theorem conflictFree_replace {entries : List TimetableEntry} {eid : Nat}
    {m : TimetableEntry}
    (hnd : (entries.map TimetableEntry.id).Nodup)
    (hcf : ConflictFree entries)
    (hm : ∀ x ∈ entries, x.id ≠ eid → committedNoConflict m x) :
    ConflictFree (entries.map fun x => if x.id == eid then m else x) := by
  rw [ConflictFree, List.pairwise_map]
  have hids : entries.Pairwise (fun a b => a.id ≠ b.id) :=
    List.pairwise_map.mp hnd
  refine List.Pairwise.imp_of_mem ?_ (hcf.and hids)
  rintro a b ha hb ⟨hr, hne⟩
  by_cases ha' : a.id = eid <;> by_cases hb' : b.id = eid
  · exact absurd (ha'.trans hb'.symm) hne
  · simp only [beq_iff_eq, ha', if_true, hb', if_false, ite_true, ite_false]
    simpa [ha', hb'] using hm b hb hb'
  · simpa [ha', hb'] using committedNoConflict_symm (hm a ha ha')
  · simpa [ha', hb'] using hr

theorem addTimetableEntry_preserves {entries : List TimetableEntry}
    {timetableId : Nat} {timetableStatus : String} {d : Day} {cs ce : Nat}
    {subjectId facultyId batchId classroomId : Nat}
    {type : Option SessionType} {newId : Nat} {e : TimetableEntry}
    (h : addTimetableEntry entries timetableId timetableStatus d cs ce
      subjectId facultyId batchId classroomId type newId = .created e)
    (hcf : ConflictFree entries) : ConflictFree (entries ++ [e]) := by
  rw [addTimetableEntry] at h
  split at h
  · exact absurd h (by simp)
  · dsimp only at h
    split at h
    case isTrue hempty =>
      have hnil : checkTimetableConflicts entries timetableId d cs ce
          facultyId batchId classroomId none = [] :=
        List.isEmpty_iff.mp hempty
      have he : e = ⟨newId, timetableId, d, cs, ce, subjectId, facultyId,
          batchId, classroomId, type.getD .lecture⟩ := by
        injection h with h'
        exact h'.symm
      subst he
      rw [ConflictFree, List.pairwise_append]
      refine ⟨hcf, by simp, ?_⟩
      intro a ha x hx
      have hxe := List.mem_singleton.mp hx
      subst hxe
      rintro ⟨htid, hday, hshare⟩
      obtain ⟨i, hi, -⟩ :=
        checkTimetableConflicts_eq_nil hnil a ha htid hday hshare
      exact absurd hi (by simp)
    case isFalse => exact absurd h (by simp)

theorem updateTimetableEntry_preserves {entries : List TimetableEntry}
    {timetableId : Nat} {timetableStatus : String} {entryId : Nat}
    {day : Option Day}
    {startTime endTime subjectId facultyId batchId classroomId : Option Nat}
    {type : Option SessionType} {out : List TimetableEntry}
    (hnd : (entries.map TimetableEntry.id).Nodup)
    (h : updateTimetableEntry entries timetableId timetableStatus entryId day
      startTime endTime subjectId facultyId batchId classroomId type = .updated out)
    (hcf : ConflictFree entries) : ConflictFree out := by
  rw [updateTimetableEntry] at h
  split at h
  · exact absurd h (by simp)
  split at h
  · exact absurd h (by simp)
  case _ e0 hfind =>
    have he0mem := List.mem_of_find?_eq_some hfind
    have he0p := List.find?_some hfind
    simp only [Bool.and_eq_true, beq_iff_eq] at he0p
    obtain ⟨he0id, he0tid⟩ := he0p
    dsimp only at h
    split at h
    · -- some searchable field provided: the conflict re-check ran
      split at h
      case isTrue hempty =>
        have hout : out = entries.map fun x =>
            if x.id == entryId then
              mergeEntry e0 day startTime endTime subjectId facultyId
                batchId classroomId type
            else x := by
          injection h with h'
          exact h'.symm
        subst hout
        have hnil := List.isEmpty_iff.mp hempty
        refine conflictFree_replace hnd hcf ?_
        intro x hx hxid
        rintro ⟨htid, hday, hshare⟩
        have hmtid : (mergeEntry e0 day startTime endTime subjectId facultyId
            batchId classroomId type).timetableId = timetableId := he0tid
        obtain ⟨i, hi, hxi⟩ := checkTimetableConflicts_eq_nil hnil x hx
          (htid.symm.trans hmtid)
          hday.symm
          (by rcases hshare with hs | hs | hs
              · exact Or.inl hs.symm
              · exact Or.inr (Or.inl hs.symm)
              · exact Or.inr (Or.inr hs.symm))
        cases hi
        exact absurd hxi hxid
      case isFalse => exact absurd h (by simp)
    · -- no searchable field provided: only subjectId or type may change
      case _ hnotprov =>
      have hout : out = entries.map fun x =>
          if x.id == entryId then
            mergeEntry e0 day startTime endTime subjectId facultyId
              batchId classroomId type
          else x := by
        injection h with h'
        exact h'.symm
      subst hout
      simp only [Bool.or_eq_true, not_or, Option.not_isSome_iff_eq_none] at hnotprov
      obtain ⟨⟨⟨⟨⟨hd, hcs⟩, hce⟩, hf⟩, hb⟩, hc⟩ := hnotprov
      subst hd hcs hce hf hb hc
      refine conflictFree_replace hnd hcf ?_
      intro x hx hxid
      have hne : e0 ≠ x := by
        intro hxe
        exact hxid (hxe ▸ he0id)
      have he0x : committedNoConflict e0 x :=
        hcf.forall (fun _ _ => committedNoConflict_symm) he0mem hx hne
      rintro ⟨htid, hday, hshare⟩
      intro hov
      refine he0x ⟨?_, ?_, ?_⟩ ?_
      · simpa [mergeEntry] using htid
      · simpa [mergeEntry] using hday
      · rcases hshare with hs | hs | hs
        · exact Or.inl (by simpa [mergeEntry] using hs)
        · exact Or.inr (Or.inl (by simpa [mergeEntry] using hs))
        · exact Or.inr (Or.inr (by simpa [mergeEntry] using hs))
      · simpa [mergeEntry] using hov

/-! ### Run-level generator lemmas -/

theorem except_ok_bind {α β : Type} (a : α) (f : α → Except JsError β) :
    Except.ok a >>= f = f a := rfl

theorem mem_facultyPreferencesFor {facultySubjects : List FacultySubjectRow}
    {subjectId : Nat} {fp : FacultyPref}
    (h : fp ∈ facultyPreferencesFor facultySubjects subjectId) :
    ∃ r ∈ facultySubjects, fp.facultyId = r.facultyId := by
  unfold facultyPreferencesFor at h
  have h' : fp ∈ prefsForSubject facultySubjects subjectId :=
    (jsSortByPreferenceDesc_perm _).mem_iff.mp h
  unfold prefsForSubject at h'
  obtain ⟨r, hr, hfr⟩ := List.mem_map.mp h'
  exact ⟨r, (List.mem_filter.mp hr).1, by rw [← hfr]⟩

theorem findFacultyAndClassroomRun_eq {roster : List FacultyRec}
    {type : SessionType} {batch : Batch} {classrooms : List Classroom}
    {prefs : List FacultyPref} {st : GenState} {d : Day} {s : TimeSlot}
    (hp : ∀ fp ∈ prefs, (roster.any fun f => f.id == fp.facultyId) = true) :
    findFacultyAndClassroomRun roster type batch classrooms prefs st d s =
      .ok (findFacultyAndClassroom type batch classrooms prefs st d s) := by
  induction prefs with
  | nil => rfl
  | cons fp rest ih =>
    have hfp := hp fp (List.mem_cons_self fp rest)
    have hrest : ∀ x ∈ rest, (roster.any fun f => f.id == x.facultyId) = true :=
      fun x hx => hp x (List.mem_cons_of_mem fp hx)
    have hcons : findFacultyAndClassroom type batch classrooms (fp :: rest)
        st d s =
        if isSlotAssigned st.occFaculty fp.facultyId d s then
          findFacultyAndClassroom type batch classrooms rest st d s
        else if isSlotAssigned st.occBatch batch.id d s then
          findFacultyAndClassroom type batch classrooms rest st d s
        else
          match findClassroom type batch classrooms st.occClassroom d s with
          | none => findFacultyAndClassroom type batch classrooms rest st d s
          | some c => some (fp.facultyId, c) := by
      unfold findFacultyAndClassroom
      rw [List.findSome?_cons]
      by_cases h1 : isSlotAssigned st.occFaculty fp.facultyId d s
      · rw [if_pos h1, if_pos h1]
      · rw [if_neg h1, if_neg h1]
        by_cases h2 : isSlotAssigned st.occBatch batch.id d s
        · rw [if_pos h2, if_pos h2]
        · rw [if_neg h2, if_neg h2]
          cases hcr : findClassroom type batch classrooms st.occClassroom d s
            with
          | none => rfl
          | some c => rfl
    unfold findFacultyAndClassroomRun
    rw [hfp, hcons]
    by_cases h1 : isSlotAssigned st.occFaculty fp.facultyId d s
    · rw [if_pos h1, if_pos h1]
      exact ih hrest
    · rw [if_neg h1, if_neg h1]
      by_cases h2 : isSlotAssigned st.occBatch batch.id d s
      · rw [if_pos h2, if_pos h2]
        exact ih hrest
      · rw [if_neg h2, if_neg h2]
        cases hcr : findClassroom type batch classrooms st.occClassroom d s with
        | none => exact ih hrest
        | some c => rfl

theorem findPlacementInSlotsRun_eq {roster : List FacultyRec}
    {type : SessionType} {batch : Batch} {classrooms : List Classroom}
    {prefs : List FacultyPref} {st : GenState} {d : Day}
    (hp : ∀ fp ∈ prefs, (roster.any fun f => f.id == fp.facultyId) = true)
    (slots : List TimeSlot) :
    findPlacementInSlotsRun roster type batch classrooms prefs st d slots =
      .ok (slots.findSome? fun s =>
        (findFacultyAndClassroom type batch classrooms prefs st d s).map
          fun fc => (d, s, fc.1, fc.2)) := by
  induction slots with
  | nil => rfl
  | cons s rest ih =>
    rw [List.findSome?_cons]
    unfold findPlacementInSlotsRun
    rw [findFacultyAndClassroomRun_eq hp, except_ok_bind]
    cases hv : findFacultyAndClassroom type batch classrooms prefs st d s with
    | none => exact ih
    | some fc => rfl

theorem findPlacementInDaysRun_eq {roster : List FacultyRec}
    {type : SessionType} {batch : Batch} {classrooms : List Classroom}
    {prefs : List FacultyPref} {st : GenState}
    (hp : ∀ fp ∈ prefs, (roster.any fun f => f.id == fp.facultyId) = true)
    (ds : List Day) :
    findPlacementInDaysRun roster type batch classrooms prefs st ds =
      .ok (ds.findSome? fun d => timeSlots.findSome? fun s =>
        (findFacultyAndClassroom type batch classrooms prefs st d s).map
          fun fc => (d, s, fc.1, fc.2)) := by
  induction ds with
  | nil => rfl
  | cons d rest ih =>
    rw [List.findSome?_cons]
    unfold findPlacementInDaysRun
    rw [findPlacementInSlotsRun_eq hp, except_ok_bind]
    cases hv : (timeSlots.findSome? fun s =>
        (findFacultyAndClassroom type batch classrooms prefs st d s).map
          fun fc => (d, s, fc.1, fc.2)) with
    | none => exact ih
    | some p => rfl

theorem assignSessionsRun_eq {roster : List FacultyRec} {timetableId : Nat}
    {type : SessionType} {subject : Subject} {batch : Batch}
    {requiresLab : Bool} {classrooms : List Classroom}
    {prefs : List FacultyPref}
    (hp : ∀ fp ∈ prefs, (roster.any fun f => f.id == fp.facultyId) = true) :
    ∀ (n : Nat) (st : GenState),
    assignSessionsRun roster timetableId type n subject batch requiresLab
        classrooms prefs st =
      .ok (assignSessions timetableId type n subject batch requiresLab
        classrooms prefs st) := by
  intro n
  induction n with
  | zero => intro st; rfl
  | succ n ih =>
    intro st
    unfold assignSessionsRun assignSessions
    have hd : findPlacementInDaysRun roster type batch classrooms prefs st
        days = .ok (findPlacement type batch classrooms prefs st) := by
      rw [findPlacementInDaysRun_eq hp]
      rfl
    rw [hd, except_ok_bind]
    cases hv : findPlacement type batch classrooms prefs st with
    | none => rfl
    | some p =>
      obtain ⟨d, s, f, c⟩ := p
      exact ih _

theorem assignSubjectForBatchRun_eq {roster : List FacultyRec}
    {timetableId : Nat} {classrooms : List Classroom}
    {facultySubjects : List FacultySubjectRow} {batch : Batch}
    {subject : Subject}
    (hp : ∀ fp ∈ facultyPreferencesFor facultySubjects subject.id,
      (roster.any fun f => f.id == fp.facultyId) = true)
    (st : GenState) :
    assignSubjectForBatchRun roster timetableId classrooms facultySubjects
        batch st subject =
      .ok (assignSubjectForBatch timetableId classrooms facultySubjects
        batch st subject) := by
  unfold assignSubjectForBatchRun assignSubjectForBatch
  simp only [assignSessionsRun_eq hp, except_ok_bind]

theorem generateSubjectsRun_eq {roster : List FacultyRec} {timetableId : Nat}
    {classrooms : List Classroom} {facultySubjects : List FacultySubjectRow}
    {batch : Batch}
    (hcov : facultyRosterCovers roster facultySubjects) :
    ∀ (subjects : List Subject) (st : GenState),
    generateSubjectsRun roster timetableId classrooms facultySubjects batch
        subjects st =
      .ok (subjects.foldl
        (assignSubjectForBatch timetableId classrooms facultySubjects batch)
        st) := by
  intro subjects
  induction subjects with
  | nil => intro st; rfl
  | cons subject rest ih =>
    intro st
    have hp : ∀ fp ∈ facultyPreferencesFor facultySubjects subject.id,
        (roster.any fun f => f.id == fp.facultyId) = true := by
      intro fp hfp
      obtain ⟨r, hr, hid⟩ := mem_facultyPreferencesFor hfp
      obtain ⟨f, hf, hfid⟩ := hcov r hr
      refine List.any_eq_true.mpr ⟨f, hf, ?_⟩
      rw [hfid, hid]
      exact beq_self_eq_true r.facultyId
    unfold generateSubjectsRun
    rw [List.foldl_cons, assignSubjectForBatchRun_eq hp, except_ok_bind]
    exact ih _

theorem generateBatchesRun_eq {roster : List FacultyRec} {timetableId : Nat}
    {subjects : List Subject} {classrooms : List Classroom}
    {facultySubjects : List FacultySubjectRow}
    (hcov : facultyRosterCovers roster facultySubjects) :
    ∀ (batches : List Batch) (st : GenState),
    generateBatchesRun roster timetableId subjects classrooms facultySubjects
        batches st =
      .ok (batches.foldl
        (fun st batch =>
          subjects.foldl
            (assignSubjectForBatch timetableId classrooms facultySubjects
              batch)
            st)
        st) := by
  intro batches
  induction batches with
  | nil => intro st; rfl
  | cons batch rest ih =>
    intro st
    unfold generateBatchesRun
    rw [List.foldl_cons, generateSubjectsRun_eq hcov, except_ok_bind]
    exact ih _

/-- Under roster coverage no occupancy lookup of the run is undefined, so
the run returns exactly the crash-free entry list. -/
theorem generateTimetableEntriesRun_eq {faculty : List FacultyRec}
    {facultySubjects : List FacultySubjectRow}
    (hcov : facultyRosterCovers faculty facultySubjects)
    (timetableId : Nat) (batches : List Batch) (subjects : List Subject)
    (classrooms : List Classroom) :
    generateTimetableEntriesRun timetableId batches subjects faculty
        classrooms facultySubjects =
      .ok (generateTimetableEntries timetableId batches subjects faculty
        classrooms facultySubjects) := by
  unfold generateTimetableEntriesRun generateTimetableEntries
  rw [generateBatchesRun_eq hcov]
  rfl

/-! ### Claim theorems -/

/-- C1: the committed conflict query is claimed to report a conflict iff a
same-day entry shares a resource AND the half-open intervals overlap, with
touching endpoints never conflicting.  The code violates this: with one
committed Monday 10:00-11:00 entry of faculty 10, the candidate Monday
11:00-12:00 for the same faculty merely touches it, yet
checkTimetableConflicts reports it as a conflict, because the duplicated
Op.or key of the where-clause object dropped the time-overlap clauses. -/
theorem checkTimetableConflicts_flags_touching_intervals :
    checkTimetableConflicts [c1existing] 1 .monday 660 720 10 21 31 none =
      [c1existing] ∧
      ¬ specOverlap 660 720 c1existing.startTime c1existing.endTime := by
  exact ⟨rfl, by decide⟩

/-- C2: any two committed assignments of the same timetable on the same day
sharing faculty, batch or classroom occupy non-overlapping (half-open)
intervals; the invariant is established by generateTimetableEntries and
preserved by manual entry addition and by entry update (the latter under
distinct primary keys). -/
theorem generation_and_manual_edits_conflictFree :
    (∀ (timetableId : Nat) (batches : List Batch) (subjects : List Subject)
       (faculty : List FacultyRec) (classrooms : List Classroom)
       (facultySubjects : List FacultySubjectRow),
       ConflictFree (generateTimetableEntries timetableId batches subjects
         faculty classrooms facultySubjects)) ∧
    (∀ (entries : List TimetableEntry) (timetableId : Nat)
       (timetableStatus : String) (d : Day) (cs ce : Nat)
       (subjectId facultyId batchId classroomId : Nat)
       (type : Option SessionType) (newId : Nat) (e : TimetableEntry),
       addTimetableEntry entries timetableId timetableStatus d cs ce
         subjectId facultyId batchId classroomId type newId = .created e →
       ConflictFree entries → ConflictFree (entries ++ [e])) ∧
    (∀ (entries : List TimetableEntry) (timetableId : Nat)
       (timetableStatus : String) (entryId : Nat) (day : Option Day)
       (startTime endTime subjectId facultyId batchId classroomId : Option Nat)
       (type : Option SessionType) (out : List TimetableEntry),
       (entries.map TimetableEntry.id).Nodup →
       updateTimetableEntry entries timetableId timetableStatus entryId day
         startTime endTime subjectId facultyId batchId classroomId type =
           .updated out →
       ConflictFree entries → ConflictFree out) := by
  refine ⟨generateTimetableEntries_conflictFree, ?_, ?_⟩
  · intro entries timetableId timetableStatus d cs ce subjectId facultyId
      batchId classroomId type newId e h hcf
    exact addTimetableEntry_preserves h hcf
  · intro entries timetableId timetableStatus entryId day startTime endTime
      subjectId facultyId batchId classroomId type out hnd h hcf
    exact updateTimetableEntry_preserves hnd h hcf

theorem generation_and_manual_edits_conflictFree_witness :
    ConflictFree (generateTimetableEntries 1 [demoBatch] [demoSubjectDS]
      [demoFaculty] [demoRoom] [demoFS]) ∧
    ConflictFree ([c1existing] ++
      [⟨2, 1, .tuesday, 600, 660, 5, 11, 21, 31, .lecture⟩]) ∧
    ConflictFree ([c1existing].map fun x =>
      if x.id == 1 then
        mergeEntry c1existing (some .tuesday) none none none none none none none
      else x) := by
  refine ⟨generation_and_manual_edits_conflictFree.1 1 [demoBatch]
      [demoSubjectDS] [demoFaculty] [demoRoom] [demoFS], ?_, ?_⟩
  · exact generation_and_manual_edits_conflictFree.2.1 [c1existing] 1 "draft"
      .tuesday 600 660 5 11 21 31 none 2 _ rfl (by decide)
  · exact generation_and_manual_edits_conflictFree.2.2 [c1existing] 1 "draft"
      1 (some .tuesday) none none none none none none none _ (by decide) rfl
      (by decide)

/-- C5 counterexample: the generate route responds with the entry count
only.  Two catalogs - one fully satisfiable, one leaving the two
practical units of subject 6 unplaced for want of a lab - yield the very
same response, so the response cannot carry the unassigned-unit count
(0 in the first run, 2 in the second per the specification formula). -/
theorem generateRoute_response_hides_unassigned_count :
    generateRoute 1 "draft" [demoBatch] [demoSubjectDS] [demoFaculty]
        [demoRoom] [demoFS] =
      generateRoute 1 "draft" [demoBatch] [demoSubjectDS, demoSubjectLab]
        [demoFaculty] [demoRoom] [demoFS] ∧
    unassignedCountSpec 1 [demoBatch] [demoSubjectDS] [demoFaculty]
        [demoRoom] [demoFS] = 0 ∧
    unassignedCountSpec 1 [demoBatch] [demoSubjectDS, demoSubjectLab]
        [demoFaculty] [demoRoom] [demoFS] = 2 := by
  exact ⟨rfl, rfl, rfl⟩

/-- C5 (amended): past its guards the generate route succeeds whenever
every preference row names a faculty of the roster: a requirement unit
with no feasible (day, slot, faculty, classroom) is then skipped without
failing the run, and the response carries exactly the number of entries
created, with no unassigned count computed or returned.  When a
preference row names a faculty absent from the roster - reachable, since
the preferences query filters neither Faculty.isActive nor
Users.isActive while the faculty query filters both - the run
dereferences an uninitialized occupancy map and throws, and the route
500s instead of skipping, shown by the concrete orphan row for
faculty 99. -/
theorem generateRoute_returns_only_entry_count :
    (∀ (timetableId : Nat) (timetableStatus : String) (batches : List Batch)
      (subjects : List Subject) (faculty : List FacultyRec)
      (classrooms : List Classroom) (facultySubjects : List FacultySubjectRow),
      timetableStatus ≠ "approved" → timetableStatus ≠ "published" →
      batches ≠ [] → subjects ≠ [] → faculty ≠ [] → classrooms ≠ [] →
      facultyRosterCovers faculty facultySubjects →
      generateRoute timetableId timetableStatus batches subjects faculty
          classrooms facultySubjects =
        .ok ⟨(generateTimetableEntries timetableId batches subjects faculty
          classrooms facultySubjects).length⟩) ∧
    generateRoute 1 "draft" [demoBatch] [demoSubjectDS] [demoFaculty]
        [demoRoom] [⟨99, 5, 9, true⟩] = .error .serverError := by
  constructor
  · intro timetableId timetableStatus batches subjects faculty classrooms
      facultySubjects h1 h2 hb hs hf hc hcov
    have h1' : (timetableStatus == "approved" ||
        timetableStatus == "published") = false := by
      simp [h1, h2]
    have hb' : batches.isEmpty = false := by
      simp [List.isEmpty_iff, hb]
    have hs' : subjects.isEmpty = false := by
      simp [List.isEmpty_iff, hs]
    have hf' : faculty.isEmpty = false := by
      simp [List.isEmpty_iff, hf]
    have hc' : classrooms.isEmpty = false := by
      simp [List.isEmpty_iff, hc]
    simp [generateRoute, h1', hb', hs', hf', hc',
      generateTimetableEntriesRun_eq hcov]
  · rfl

theorem generateRoute_returns_only_entry_count_witness :
    generateRoute 1 "draft" [demoBatch] [demoSubjectDS] [demoFaculty]
        [demoRoom] [demoFS] =
      .ok ⟨(generateTimetableEntries 1 [demoBatch] [demoSubjectDS]
        [demoFaculty] [demoRoom] [demoFS]).length⟩ :=
  generateRoute_returns_only_entry_count.1 1 "draft" [demoBatch]
    [demoSubjectDS] [demoFaculty] [demoRoom] [demoFS] (by decide) (by decide)
    (by decide) (by decide) (by decide) (by decide) (by decide)

/-- C7 counterexample: the manual entry route checks neither lab
capability nor capacity, so a practical-kind entry referencing the
regular (non-lab) classroom 30 is created without objection, violating
the claimed invariant for manually added entries. -/
theorem manual_practical_entry_nonlab_counterexample :
    addTimetableEntry [] 1 "draft" .monday 540 600 5 10 20 demoRoom.id
        (some .practical) 1 =
      .created ⟨1, 1, .monday, 540, 600, 5, 10, 20, demoRoom.id, .practical⟩ ∧
      demoRoom.isLab = false := by
  exact ⟨rfl, rfl⟩

/-- C7 (amended): every assignment produced by generateTimetableEntries
references a catalog classroom whose lab flag matches the session type -
labs for practical sessions, and never a lab for non-practical sessions;
manually added entries are outside any such check. -/
theorem generated_entries_lab_discipline :
    ∀ (timetableId : Nat) (batches : List Batch) (subjects : List Subject)
      (faculty : List FacultyRec) (classrooms : List Classroom)
      (facultySubjects : List FacultySubjectRow),
    ∀ e ∈ generateTimetableEntries timetableId batches subjects faculty
        classrooms facultySubjects,
      ∃ c ∈ classrooms, c.id = e.classroomId ∧
        (e.type = .practical → c.isLab = true) ∧
        (e.type ≠ .practical → c.isLab = false) := by
  intro timetableId batches subjects faculty classrooms facultySubjects e he
  obtain ⟨-, -, hfit⟩ := generateTimetableEntries_entries_inv timetableId
    batches subjects faculty classrooms facultySubjects
  obtain ⟨c, hc, h1, h2, h3, -⟩ := hfit e he
  exact ⟨c, hc, h1, h2, h3⟩

theorem generated_entries_lab_discipline_witness :
    ∃ c ∈ [demoRoom], c.id =
        (⟨0, 1, .monday, 540, 600, 5, 10, 20, 30, .lecture⟩ :
          TimetableEntry).classroomId ∧
      ((⟨0, 1, .monday, 540, 600, 5, 10, 20, 30, .lecture⟩ :
          TimetableEntry).type = .practical → c.isLab = true) ∧
      ((⟨0, 1, .monday, 540, 600, 5, 10, 20, 30, .lecture⟩ :
          TimetableEntry).type ≠ .practical → c.isLab = false) :=
  generated_entries_lab_discipline 1 [demoBatch] [demoSubjectDS] [demoFaculty]
    [demoRoom] [demoFS] _ (by decide)

/-- C8 counterexample: the manual entry route performs no capacity check:
an entry pairing batch 20 (strength 60) with classroom 32 (capacity 10)
is created without objection. -/
theorem manual_entry_capacity_counterexample :
    addTimetableEntry [] 1 "draft" .monday 540 600 5 10 demoBatch.id
        smallRoom.id none 1 =
      .created ⟨1, 1, .monday, 540, 600, 5, 10, demoBatch.id, smallRoom.id,
        .lecture⟩ ∧
      smallRoom.capacity < demoBatch.strength := by
  exact ⟨rfl, by decide⟩

/-- C8 (amended): every assignment produced by generateTimetableEntries
pairs a catalog classroom and a catalog batch whose ids it references
such that the classroom capacity is at least the batch strength; manual
entries are not capacity-checked. -/
theorem generated_entries_capacity_fits :
    ∀ (timetableId : Nat) (batches : List Batch) (subjects : List Subject)
      (faculty : List FacultyRec) (classrooms : List Classroom)
      (facultySubjects : List FacultySubjectRow),
    ∀ e ∈ generateTimetableEntries timetableId batches subjects faculty
        classrooms facultySubjects,
      ∃ c ∈ classrooms, ∃ b ∈ batches, c.id = e.classroomId ∧
        b.id = e.batchId ∧ b.strength ≤ c.capacity := by
  intro timetableId batches subjects faculty classrooms facultySubjects e he
  obtain ⟨-, -, hfit⟩ := generateTimetableEntries_entries_inv timetableId
    batches subjects faculty classrooms facultySubjects
  obtain ⟨c, hc, hid, -, -, b, hb, hbid, hcap⟩ := hfit e he
  exact ⟨c, hc, b, hb, hid, hbid, hcap⟩

theorem generated_entries_capacity_fits_witness :
    ∃ c ∈ [demoRoom], ∃ b ∈ [demoBatch], c.id =
        (⟨0, 1, .monday, 540, 600, 5, 10, 20, 30, .lecture⟩ :
          TimetableEntry).classroomId ∧
      b.id = (⟨0, 1, .monday, 540, 600, 5, 10, 20, 30, .lecture⟩ :
        TimetableEntry).batchId ∧ b.strength ≤ c.capacity :=
  generated_entries_capacity_fits 1 [demoBatch] [demoSubjectDS] [demoFaculty]
    [demoRoom] [demoFS] _ (by decide)

/-- C9: generation is deterministic - equal inputs in equal order yield
equal entry lists - and the per-subject faculty ranking is the stable
descending-preference linearization: sorted by prefLE over original
positions (so equal preferences keep input order) and a permutation of
the input bucket. -/
theorem generation_deterministic_with_stable_ties :
    (∀ (t1 t2 : Nat) (b1 b2 : List Batch) (s1 s2 : List Subject)
       (f1 f2 : List FacultyRec) (c1 c2 : List Classroom)
       (r1 r2 : List FacultySubjectRow),
       t1 = t2 → b1 = b2 → s1 = s2 → f1 = f2 → c1 = c2 → r1 = r2 →
       generateTimetableEntries t1 b1 s1 f1 c1 r1 =
         generateTimetableEntries t2 b2 s2 f2 c2 r2) ∧
    (∀ (l : List FacultyPref),
       (List.insertionSort prefLE l.enum).Pairwise prefLE ∧
       (jsSortByPreferenceDesc l).Perm l) ∧
    ∀ (facultySubjects : List FacultySubjectRow) (subjectId : Nat),
      (facultyPreferencesFor facultySubjects subjectId).Perm
        (prefsForSubject facultySubjects subjectId) := by
  refine ⟨?_, ?_, ?_⟩
  · rintro t1 t2 b1 b2 s1 s2 f1 f2 c1 c2 r1 r2 rfl rfl rfl rfl rfl rfl
    rfl
  · intro l
    exact ⟨jsSortByPreferenceDesc_pairwise l, jsSortByPreferenceDesc_perm l⟩
  · intro facultySubjects subjectId
    exact jsSortByPreferenceDesc_perm (prefsForSubject facultySubjects subjectId)

theorem generation_deterministic_with_stable_ties_witness :
    generateTimetableEntries 1 [demoBatch] [demoSubjectDS] [demoFaculty]
        [demoRoom] [demoFS] =
      generateTimetableEntries 1 [demoBatch] [demoSubjectDS] [demoFaculty]
        [demoRoom] [demoFS] :=
  generation_deterministic_with_stable_ties.1 1 1 [demoBatch] [demoBatch]
    [demoSubjectDS] [demoSubjectDS] [demoFaculty] [demoFaculty] [demoRoom]
    [demoRoom] [demoFS] [demoFS] rfl rfl rfl rfl rfl rfl

/-- The accept/assign conflict query fails for every input: operator
resolution for the day condition aborts before any row is read. -/
theorem acceptConflictQuery_isError (entries : List TimetableEntry)
    (facultyId cs ce dow : Nat) :
    acceptConflictQuery entries facultyId cs ce dow =
      .error .noOperatorEnumEqNumeric := rfl

/-- C3: accept is claimed to bind the substitute and set status accepted
after a weekday conflict re-check.  In the code the re-check compares the
day enum with the numeric EXTRACT(DOW ...) value, which PostgreSQL
cannot resolve (and toISOString on the DATEONLY string throws first), so
every accept attempt that reaches the re-check fails with a server error
and no accept ever commits: the route has no successful outcome at all,
demonstrated also on the concrete conflict-free state c3state where the
claim requires success. -/
theorem acceptRoute_never_commits :
    (∀ (st : SubState) (userId subId : Nat),
      (acceptRoute st userId subId).isOk = false) ∧
    acceptRoute c3state 102 1 = .serverError := by
  constructor
  · intro st userId subId
    unfold acceptRoute
    simp only [acceptConflictQuery_isError]
    repeat' split
    all_goals rfl
  · rfl

theorem updateSubstitution_declined_isError (subs : List Substitution)
    (subId : Nat) (f : Substitution → Substitution) :
    updateSubstitution subs subId f "declined" = .error .invalidEnumInput := by
  unfold updateSubstitution
  rw [if_neg (by decide)]

/-- C4: the claim says declining a pending offer hands it to the next
candidate, or leaves it pending with the substitute cleared when none
remains.  The code can do neither: its first update writes status
declined, which is not among the declared values
ENUM(pending, accepted, rejected) of the Substitution status column, so
PostgreSQL rejects the write (invalid input value for enum), the
transaction rolls back and the route 500s.  No decline ever commits -
the offer stays pending with its substitute intact and the re-address
cascade below the first update is unreachable - shown for every state
and input, and concretely both on c4state (no further candidate) and on
c4bstate (a further candidate exists, so the claimed re-address would
apply). -/
theorem declineRoute_never_commits :
    (∀ (st : SubState) (userId subId : Nat),
      (declineRouteDb st userId subId).isOk = false) ∧
    declineRouteDb c4state 102 1 = .serverError ∧
    declineRouteDb c4bstate 102 1 = .serverError := by
  refine ⟨?_, rfl, rfl⟩
  intro st userId subId
  unfold declineRouteDb
  simp only [updateSubstitution_declined_isError]
  repeat' split
  all_goals rfl

/-- C10: the Substitution model declares status
ENUM(pending, accepted, rejected), yet the decline route writes declined
(shown by the concrete decline run) and the assign route writes assigned;
neither literal is a member of the declared enumeration, so the claimed
admissibility fails and PostgreSQL rejects these writes at runtime. -/
theorem decline_and_assign_status_values_outside_enum :
    declineRoute c4state 102 1 =
      .ok ⟨[⟨1, 7, 1, some 2, 4, some 3, declineStatusWrite, true⟩], [c3entry],
        [⟨1, 101, "CS"⟩, ⟨2, 102, "CS"⟩], [⟨2, 5, 9, true⟩], [⟨5, 3, 0, 0⟩]⟩ ∧
      declineStatusWrite ∉ substitutionStatusEnumValues ∧
      assignStatusWrite ∉ substitutionStatusEnumValues ∧
      "accepted" ∈ substitutionStatusEnumValues ∧
      "pending" ∈ substitutionStatusEnumValues := by
  exact ⟨rfl, by decide, by decide, by decide, by decide⟩

theorem mem_potentialSubstitutesQuery {fss : List FacultySubjectRow}
    {facs : List FacultyRec} {dept : String} {sid orig cur : Nat}
    {x : FacultyPref} :
    x ∈ potentialSubstitutesQuery fss facs dept sid orig cur ↔
      ∃ r ∈ fss, r.subjectId = sid ∧ r.isActive = true ∧
        r.facultyId ≠ orig ∧ r.facultyId ≠ cur ∧
        x = ⟨r.facultyId, r.preference⟩ ∧
        ∃ f, facs.find? (fun f => f.id == r.facultyId) = some f ∧
          f.department = dept := by
  unfold potentialSubstitutesQuery orderByPreferenceDesc
  rw [(List.perm_insertionSort prefGE _).mem_iff, List.mem_filterMap]
  constructor
  · rintro ⟨r, hr, hfr⟩
    split at hfr
    next hc =>
      simp only [Bool.and_eq_true, beq_iff_eq, bne_iff_ne] at hc
      obtain ⟨⟨⟨hc1, hc2⟩, hc3⟩, hc4⟩ := hc
      rcases hf : facs.find? (fun f => f.id == r.facultyId) with - | f <;>
        rw [hf] at hfr
      · exact absurd hfr (by simp)
      · dsimp only at hfr
        split at hfr
        next hd =>
          have hx : x = ⟨r.facultyId, r.preference⟩ := by
            injection hfr with h'
            exact h'.symm
          exact ⟨r, hr, hc1, hc2, hc3, hc4, hx, f, hf, by simpa using hd⟩
        next => exact absurd hfr (by simp)
    next => exact absurd hfr (by simp)
  · rintro ⟨r, hr, h1, h2, h3, h4, rfl, f, hf, hfd⟩
    refine ⟨r, hr, ?_⟩
    have hc : (r.subjectId == sid && r.isActive && r.facultyId != orig &&
        r.facultyId != cur) = true := by
      simp [h1, h2, h3, h4]
    rw [if_pos hc, hf]
    dsimp only
    rw [if_pos (by simp [hfd])]

theorem orderByPreferenceDesc_head_max_self {l : List FacultyPref}
    {c : FacultyPref} (h : (orderByPreferenceDesc l).head? = some c) :
    c ∈ orderByPreferenceDesc l ∧
      ∀ x ∈ orderByPreferenceDesc l, x.preference ≤ c.preference := by
  obtain ⟨hc, hmax⟩ := orderByPreferenceDesc_head_max h
  have hperm : (orderByPreferenceDesc l).Perm l := List.perm_insertionSort prefGE l
  exact ⟨hperm.mem_iff.mpr hc, fun x hx => hmax x (hperm.mem_iff.mp hx)⟩

/-! ### Leave-route lemmas -/

theorem mem_leaveCandidatesQuery {fss : List FacultySubjectRow}
    {facs : List FacultyRec} {dept : String} {sid fid : Nat}
    {x : FacultyPref} :
    x ∈ leaveCandidatesQuery fss facs dept sid fid ↔
      ∃ r ∈ fss, r.subjectId = sid ∧ r.isActive = true ∧ r.facultyId ≠ fid ∧
        x = ⟨r.facultyId, r.preference⟩ ∧
        ∃ f, facs.find? (fun f => f.id == r.facultyId) = some f ∧
          f.department = dept := by
  unfold leaveCandidatesQuery orderByPreferenceDesc
  rw [(List.perm_insertionSort prefGE _).mem_iff, List.mem_filterMap]
  constructor
  · rintro ⟨r, hr, hfr⟩
    split at hfr
    next hc =>
      simp only [Bool.and_eq_true, beq_iff_eq, bne_iff_ne] at hc
      obtain ⟨⟨hc1, hc2⟩, hc3⟩ := hc
      rcases hf : facs.find? (fun f => f.id == r.facultyId) with - | f <;>
        rw [hf] at hfr
      · exact absurd hfr (by simp)
      · dsimp only at hfr
        split at hfr
        next hd =>
          have hx : x = ⟨r.facultyId, r.preference⟩ := by
            injection hfr with h'
            exact h'.symm
          exact ⟨r, hr, hc1, hc2, hc3, hx, f, hf, by simpa using hd⟩
        next => exact absurd hfr (by simp)
    next => exact absurd hfr (by simp)
  · rintro ⟨r, hr, h1, h2, h3, rfl, f, hf, hfd⟩
    refine ⟨r, hr, ?_⟩
    have hc : (r.subjectId == sid && r.isActive && r.facultyId != fid) = true := by
      simp [h1, h2, h3]
    rw [if_pos hc, hf]
    dsimp only
    rw [if_pos (by simp [hfd])]

theorem getDatesByDayOfWeek_nodup (day : Day) (startDate endDate : Nat) :
    (getDatesByDayOfWeek day startDate endDate).Nodup := by
  unfold getDatesByDayOfWeek
  refine List.Nodup.filterMap ?_ (List.nodup_range _)
  intro a a' b hb hb'
  split at hb
  · split at hb'
    · have h1 : b = startDate + a := by
        have := Option.some.inj hb
        omega
      have h2 : b = startDate + a' := by
        have := Option.some.inj hb'
        omega
      omega
    · exact absurd hb' (by simp)
  · exact absurd hb (by simp)

theorem approveLeaveRoute_spec {leaves : List LeaveRequestRec}
    {subs : List Substitution} {leaveId : Nat}
    {res : List LeaveRequestRec × List Substitution}
    (h : approveLeaveRoute leaves subs leaveId = .ok res) :
    res.2.length = subs.length ∧
      ∀ s' ∈ res.2, ∃ s ∈ subs, s'.timetableEntryId = s.timetableEntryId ∧
        s'.date = s.date ∧ s'.substituteFacultyId = s.substituteFacultyId := by
  rw [approveLeaveRoute] at h
  split at h
  · exact absurd h (by simp)
  split at h
  · exact absurd h (by simp)
  · have hres : res = (leaves.map fun l =>
        if l.id == leaveId then { l with status := "approved" } else l,
        subs.map fun s =>
          if s.leaveRequestId == some leaveId then { s with status := "pending" }
          else s) := by
      injection h with h'
      exact h'.symm
    subst hres
    constructor
    · exact List.length_map subs _
    · intro s' hs'
      obtain ⟨s, hs, rfl⟩ := List.mem_map.mp hs'
      by_cases hc : (s.leaveRequestId == some leaveId) = true
      · exact ⟨s, hs, by simp [hc], by simp [hc], by simp [hc]⟩
      · exact ⟨s, hs, by simp [hc], by simp [hc], by simp [hc]⟩

theorem createLeaveSubstitutions_sound {entries : List TimetableEntry}
    {timetables : List Timetable} {facultySubjects : List FacultySubjectRow}
    {faculties : List FacultyRec} {facultyId : Nat} {department : String}
    {startDate endDate leaveRequestId : Nat} {subs : List Substitution}
    (h : createLeaveSubstitutions entries timetables facultySubjects faculties
      facultyId department startDate endDate leaveRequestId = .ok subs) :
    ∀ sub ∈ subs,
      sub.status = "pending" ∧ sub.originalFacultyId = facultyId ∧
        sub.leaveRequestId = some leaveRequestId ∧
        ∃ e ∈ affectedEntriesFor entries timetables facultyId startDate endDate,
          sub.timetableEntryId = e.id ∧
          sub.date ∈ getDatesByDayOfWeek e.day startDate endDate ∧
          ∃ c, (leaveCandidatesQuery facultySubjects faculties department
              e.subjectId facultyId).head? = some c ∧
            sub.substituteFacultyId = some c.facultyId ∧
            c.facultyId ≠ facultyId ∧
            ∀ x ∈ leaveCandidatesQuery facultySubjects faculties department
              e.subjectId facultyId, x.preference ≤ c.preference := by
  rw [createLeaveSubstitutions] at h
  split at h
  case isTrue hall =>
    have hsubs := (Except.ok.inj h).symm
    subst hsubs
    intro sub hsub
    have hnn : sub.substituteFacultyId ≠ none := by
      have := List.all_eq_true.mp hall sub hsub
      simpa [bne_iff_ne] using this
    obtain ⟨sid, hsid, hsub2⟩ := List.mem_flatMap.mp hsub
    obtain ⟨e, he, hsub3⟩ := List.mem_flatMap.mp hsub2
    obtain ⟨d, hd, hsubeq⟩ := List.mem_map.mp hsub3
    have hef := List.mem_filter.mp he
    have hesid : e.subjectId = sid := by simpa using hef.2
    subst hesid
    subst hsubeq
    refine ⟨rfl, rfl, rfl, e, hef.1, rfl, hd, ?_⟩
    rcases hh : (leaveCandidatesQuery facultySubjects faculties department
        e.subjectId facultyId).head? with - | c
    · rw [hh] at hnn
      simp at hnn
    · obtain ⟨hcmem, hcmax⟩ := orderByPreferenceDesc_head_max_self hh
      obtain ⟨r, -, -, -, hrne, hxc, -⟩ := mem_leaveCandidatesQuery.mp hcmem
      refine ⟨c, rfl, rfl, ?_, hcmax⟩
      rw [hxc]
      exact hrne
  case isFalse => exact absurd h (by simp)

theorem createLeaveSubstitutions_complete {entries : List TimetableEntry}
    {timetables : List Timetable} {facultySubjects : List FacultySubjectRow}
    {faculties : List FacultyRec} {facultyId : Nat} {department : String}
    {startDate endDate leaveRequestId : Nat} {subs : List Substitution}
    (h : createLeaveSubstitutions entries timetables facultySubjects faculties
      facultyId department startDate endDate leaveRequestId = .ok subs) :
    ∀ e ∈ affectedEntriesFor entries timetables facultyId startDate endDate,
      ∀ d ∈ getDatesByDayOfWeek e.day startDate endDate,
        ∃ sub ∈ subs, sub.timetableEntryId = e.id ∧ sub.date = d := by
  rw [createLeaveSubstitutions] at h
  split at h
  · have hsubs := (Except.ok.inj h).symm
    subst hsubs
    intro e he d hd
    refine ⟨⟨0, e.id, facultyId,
      ((leaveCandidatesQuery facultySubjects faculties department e.subjectId
        facultyId).head?).map (fun c => c.facultyId), d, some leaveRequestId,
      "pending", false⟩, ?_, rfl, rfl⟩
    refine List.mem_flatMap.mpr ⟨e.subjectId, ?_, ?_⟩
    · exact List.mem_dedup.mpr (List.mem_map.mpr ⟨e, he, rfl⟩)
    · refine List.mem_flatMap.mpr ⟨e, ?_, List.mem_map.mpr ⟨d, hd, rfl⟩⟩
      exact List.mem_filter.mpr ⟨he, by simp⟩
  · exact absurd h (by simp)

theorem createLeaveSubstitutions_keys_nodup {entries : List TimetableEntry}
    {timetables : List Timetable} {facultySubjects : List FacultySubjectRow}
    {faculties : List FacultyRec} {facultyId : Nat} {department : String}
    {startDate endDate leaveRequestId : Nat} {subs : List Substitution}
    (hnd : (entries.map TimetableEntry.id).Nodup)
    (h : createLeaveSubstitutions entries timetables facultySubjects faculties
      facultyId department startDate endDate leaveRequestId = .ok subs) :
    (subs.map fun s => (s.timetableEntryId, s.date)).Nodup := by
  rw [createLeaveSubstitutions] at h
  split at h
  · have hsubs := (Except.ok.inj h).symm
    subst hsubs
    have haffsub : (affectedEntriesFor entries timetables facultyId startDate
        endDate).Sublist entries := by
      unfold affectedEntriesFor
      exact List.filter_sublist entries
    have haffnd : ((affectedEntriesFor entries timetables facultyId startDate
        endDate).map TimetableEntry.id).Nodup :=
      List.Pairwise.sublist (haffsub.map TimetableEntry.id) hnd
    have haffpw : (affectedEntriesFor entries timetables facultyId startDate
        endDate).Pairwise (fun a b => a.id ≠ b.id) :=
      List.pairwise_map.mp haffnd
    rw [List.map_flatMap, List.nodup_flatMap]
    constructor
    · intro sid hsid
      rw [List.map_flatMap, List.nodup_flatMap]
      constructor
      · intro e he
        rw [List.map_map]
        refine List.Nodup.map ?_ (getDatesByDayOfWeek_nodup _ _ _)
        intro d d' hdd
        exact (Prod.ext_iff.mp hdd).2
      · refine List.Pairwise.imp_of_mem ?_
          (List.Pairwise.sublist (List.filter_sublist _) haffpw)
        intro a b ha hb hne x hxa hxb
        obtain ⟨s1, hs1, hk1⟩ := List.mem_map.mp hxa
        obtain ⟨s2, hs2, hk2⟩ := List.mem_map.mp hxb
        obtain ⟨d1, -, hm1⟩ := List.mem_map.mp hs1
        obtain ⟨d2, -, hm2⟩ := List.mem_map.mp hs2
        apply hne
        have h1 : x.1 = a.id := by rw [← hk1, ← hm1]
        have h2 : x.1 = b.id := by rw [← hk2, ← hm2]
        rw [← h1, h2]
    · refine List.Pairwise.imp_of_mem ?_
        ((List.nodup_dedup _) :
          ((affectedEntriesFor entries timetables facultyId startDate
            endDate).map (fun e => e.subjectId)).dedup.Pairwise (· ≠ ·))
      intro sid sid' hs hs' hne x hx hx'
      obtain ⟨s1, hs1, hk1⟩ := List.mem_map.mp hx
      obtain ⟨s2, hs2, hk2⟩ := List.mem_map.mp hx'
      obtain ⟨e, he, hm1⟩ := List.mem_flatMap.mp hs1
      obtain ⟨e', he', hm2⟩ := List.mem_flatMap.mp hs2
      obtain ⟨d1, -, hd1⟩ := List.mem_map.mp hm1
      obtain ⟨d2, -, hd2⟩ := List.mem_map.mp hm2
      have hef := List.mem_filter.mp he
      have hef' := List.mem_filter.mp he'
      have hide : e.id = e'.id := by
        have h1 : x.1 = e.id := by rw [← hk1, ← hd1]
        have h2 : x.1 = e'.id := by rw [← hk2, ← hd2]
        rw [← h1, h2]
      have hee : e = e' :=
        List.inj_on_of_nodup_map haffnd hef.1 hef'.1 hide
      apply hne
      have hsid1 : e.subjectId = sid := by simpa using hef.2
      have hsid2 : e'.subjectId = sid' := by simpa using hef'.2
      rw [← hsid1, ← hsid2, hee]
  · exact absurd h (by simp)

/-- C6 counterexample: approving pending leave 3 of faculty 1 creates no
substitution offer, although entry 7 of faculty 1 sits in a published
timetable and its Monday falls in the leave range on exactly one
concrete date (4): the offers for a leave are created by POST /api/leaves
at request creation, and the approve route only re-marks them pending. -/
theorem approve_creates_no_offers_counterexample :
    approveLeaveRoute [c6leave] [] 3 = .ok ([⟨3, 1, 0, 6, "approved"⟩], []) ∧
      affectedEntriesFor [c3entry] [c6timetable] 1 0 6 = [c3entry] ∧
      getDatesByDayOfWeek c3entry.day 0 6 = [4] := by
  exact ⟨rfl, rfl, rfl⟩

/-- C6 (amended): the substitution search runs at leave-request creation,
not at approval.  Approval only marks the already-created offers of the
leave pending, changing neither their number nor their addressees (first
conjunct).  Creation produces offers that are pending, belong to the
leave, and pair an affected assignment with a matching concrete date,
addressed to a maximal-preference same-department eligible candidate
distinct from the original faculty (soundness); it covers every
(affected assignment, matching date) pair (completeness); and under
distinct entry ids it creates exactly one offer per pair (key
uniqueness).  A leave for which some affected subject has no eligible
candidate makes the whole creation fail with a not-null violation, so a
successful creation never carries a null substitute. -/
theorem leave_creation_triggers_substitution_search :
    (∀ (leaves : List LeaveRequestRec) (subs : List Substitution)
       (leaveId : Nat) (res : List LeaveRequestRec × List Substitution),
       approveLeaveRoute leaves subs leaveId = .ok res →
       res.2.length = subs.length ∧
         ∀ s' ∈ res.2, ∃ s ∈ subs, s'.timetableEntryId = s.timetableEntryId ∧
           s'.date = s.date ∧ s'.substituteFacultyId = s.substituteFacultyId) ∧
    (∀ (entries : List TimetableEntry) (timetables : List Timetable)
       (facultySubjects : List FacultySubjectRow) (faculties : List FacultyRec)
       (facultyId : Nat) (department : String)
       (startDate endDate leaveRequestId : Nat) (subs : List Substitution),
       createLeaveSubstitutions entries timetables facultySubjects faculties
         facultyId department startDate endDate leaveRequestId = .ok subs →
       ∀ sub ∈ subs,
         sub.status = "pending" ∧ sub.originalFacultyId = facultyId ∧
           sub.leaveRequestId = some leaveRequestId ∧
           ∃ e ∈ affectedEntriesFor entries timetables facultyId startDate
               endDate,
             sub.timetableEntryId = e.id ∧
             sub.date ∈ getDatesByDayOfWeek e.day startDate endDate ∧
             ∃ c, (leaveCandidatesQuery facultySubjects faculties department
                 e.subjectId facultyId).head? = some c ∧
               sub.substituteFacultyId = some c.facultyId ∧
               c.facultyId ≠ facultyId ∧
               ∀ x ∈ leaveCandidatesQuery facultySubjects faculties department
                 e.subjectId facultyId, x.preference ≤ c.preference) ∧
    (∀ (entries : List TimetableEntry) (timetables : List Timetable)
       (facultySubjects : List FacultySubjectRow) (faculties : List FacultyRec)
       (facultyId : Nat) (department : String)
       (startDate endDate leaveRequestId : Nat) (subs : List Substitution),
       createLeaveSubstitutions entries timetables facultySubjects faculties
         facultyId department startDate endDate leaveRequestId = .ok subs →
       ∀ e ∈ affectedEntriesFor entries timetables facultyId startDate endDate,
         ∀ d ∈ getDatesByDayOfWeek e.day startDate endDate,
           ∃ sub ∈ subs, sub.timetableEntryId = e.id ∧ sub.date = d) ∧
    ∀ (entries : List TimetableEntry) (timetables : List Timetable)
      (facultySubjects : List FacultySubjectRow) (faculties : List FacultyRec)
      (facultyId : Nat) (department : String)
      (startDate endDate leaveRequestId : Nat) (subs : List Substitution),
      (entries.map TimetableEntry.id).Nodup →
      createLeaveSubstitutions entries timetables facultySubjects faculties
        facultyId department startDate endDate leaveRequestId = .ok subs →
      (subs.map fun s => (s.timetableEntryId, s.date)).Nodup := by
  refine ⟨?_, ?_, ?_, ?_⟩
  · intro leaves subs leaveId res h
    exact approveLeaveRoute_spec h
  · intro entries timetables facultySubjects faculties facultyId department
      startDate endDate leaveRequestId subs h
    exact createLeaveSubstitutions_sound h
  · intro entries timetables facultySubjects faculties facultyId department
      startDate endDate leaveRequestId subs h
    exact createLeaveSubstitutions_complete h
  · intro entries timetables facultySubjects faculties facultyId department
      startDate endDate leaveRequestId subs hnd h
    exact createLeaveSubstitutions_keys_nodup hnd h

theorem leave_creation_triggers_substitution_search_witness :
    ∃ sub ∈ [(⟨0, 7, 1, some 2, 4, some 3, "pending", false⟩ : Substitution)],
      sub.timetableEntryId = c3entry.id ∧ sub.date = 4 :=
  leave_creation_triggers_substitution_search.2.2.1 [c3entry] [c6timetable]
    [⟨2, 5, 9, true⟩] [⟨1, 101, "CS"⟩, ⟨2, 102, "CS"⟩] 1 "CS" 0 6 3
    [⟨0, 7, 1, some 2, 4, some 3, "pending", false⟩] rfl c3entry (by decide)
    4 (by decide)

end Scheduler
